import Mathlib

/-!
# PolyZ: codec adapters `pzlib.c` (deflate-style) and `pzsnap.cc` (length-prefixed)

Shallow embedding of the two adapter files.

* C objects of type `uLong` / `size_t` are naturals below `2^64`; arithmetic on
  them is taken modulo `2^64`.  `unsigned int` is taken modulo `2^32`, `int` is
  the signed 32-bit residue.
* A pointer is a memory block together with an offset into it.  Reads stop at
  the end of the block and writes past the end are dropped (such accesses are
  undefined behaviour in C).
* The compression libraries (bzip2, lz4, lzma, lzo, snappy, zlib) are not part
  of the repository: their entry points are the fields of `Native`, a
  parameter of every definition that calls them.
* `exit(1)` is an outcome of its own; the process state carries an
  observation log of the `getenv`, `exit` and backend calls that were made.
-/

namespace PolyZ

/-! ## Machine words, bytes and pointers -/

abbrev Byte := Fin 256

/-- Number of values of a 64-bit `uLong` / `size_t`. -/
def WORD : Nat := 18446744073709551616

/-- Number of values of a 32-bit `unsigned int`. -/
def UINT : Nat := 4294967296

/-- Value of `sizeof(size_t)` on the LP64 target. -/
def SIZEOF_SIZE_T : Nat := 8

/-- Unsigned 64-bit addition. -/
def wadd (a b : Nat) : Nat := (a + b) % WORD

/-- Unsigned 64-bit subtraction. -/
def wsub (a b : Nat) : Nat := (a % WORD + (WORD - b % WORD)) % WORD

/-- Conversion of an unsigned value to `unsigned int`. -/
def toUInt (n : Nat) : Nat := n % UINT

/-- Conversion of an unsigned value to `int`. -/
def toInt32 (n : Nat) : Int :=
  if n % UINT < 2147483648 then ((n % UINT : Nat) : Int) else ((n % UINT : Nat) : Int) - 4294967296

/-- Conversion of a signed value to `uLong` / `size_t`. -/
def ofInt (i : Int) : Nat := (i % 18446744073709551616).toNat

/-- Conversion of a signed value to `uint32_t`. -/
def ofInt32 (i : Int) : Nat := (i % 4294967296).toNat

structure Ptr where
  mem : List Byte
  off : Nat
deriving DecidableEq, Repr

/-- Pointer arithmetic `p + k`. -/
def Ptr.add (p : Ptr) (k : Nat) : Ptr := ⟨p.mem, p.off + k⟩

/-- Pointer arithmetic `p - k`. -/
def Ptr.sub (p : Ptr) (k : Nat) : Ptr := ⟨p.mem, p.off - k⟩

/-- The `n` bytes found at `p`. -/
def Ptr.read (p : Ptr) (n : Nat) : List Byte := (p.mem.drop p.off).take n

/-- Memory block after storing `bs` at `p`. -/
def Ptr.write (p : Ptr) (bs : List Byte) : List Byte :=
  (p.mem.take p.off ++ bs ++ p.mem.drop (p.off + bs.length)).take p.mem.length

/-- Low byte of a natural number. -/
def byteOf (n : Nat) : Byte := ⟨n % 256, Nat.mod_lt n (by decide)⟩

/-- Object representation of a `size_t` (little endian, `k` bytes). -/
def sizeBytes : Nat → Nat → List Byte
  | 0, _ => []
  | k + 1, n => byteOf n :: sizeBytes k (n / 256)

/-- Value of a `size_t` object read from its bytes. -/
def sizeValue : List Byte → Nat
  | [] => 0
  | b :: bs => b.val + 256 * sizeValue bs

/-! ## Status codes of the libraries (values of the library headers) -/

def Z_OK : Int := 0
def Z_STREAM_END : Int := 1
def Z_ERRNO : Int := -1
def Z_STREAM_ERROR : Int := -2
def Z_DATA_ERROR : Int := -3
def Z_MEM_ERROR : Int := -4
def Z_BUF_ERROR : Int := -5
def Z_VERSION_ERROR : Int := -6
def Z_DEFAULT_COMPRESSION : Int := -1

def BZ_OK : Int := 0
def BZ_MEM_ERROR : Int := -3
def BZ_DATA_ERROR : Int := -4
def BZ_OUTBUFF_FULL : Int := -8

def LZMA_OK : Int := 0
def LZMA_STREAM_END : Int := 1
def LZMA_MEM_ERROR : Int := 5
def LZMA_FORMAT_ERROR : Int := 7
def LZMA_DATA_ERROR : Int := 9
def LZMA_BUF_ERROR : Int := 10
def LZMA_CHECK_NONE : Int := 0

def LZO_E_OK : Int := 0
def LZO_E_ERROR : Int := -1
def LZO_E_OUT_OF_MEMORY : Int := -2
def LZO_E_NOT_COMPRESSIBLE : Int := -3
def LZO_E_INPUT_OVERRUN : Int := -4
def LZO_E_OUTPUT_OVERRUN : Int := -5
def LZO_E_EOF_NOT_FOUND : Int := -7
def LZO_E_INPUT_NOT_CONSUMED : Int := -8
def LZO_E_NOT_YET_IMPLEMENTED : Int := -9
def LZO_E_INVALID_ARGUMENT : Int := -10

/-- The status type of `snappy-c.h`. -/
inductive snappy_status where
  | SNAPPY_OK
  | SNAPPY_INVALID_INPUT
  | SNAPPY_BUFFER_TOO_SMALL
deriving DecidableEq, Repr

/-- Integer value of a `snappy_status` enumerator. -/
def snappy_status.toInt : snappy_status → Int
  | .SNAPPY_OK => 0
  | .SNAPPY_INVALID_INPUT => 1
  | .SNAPPY_BUFFER_TOO_SMALL => 2

/-- The seven status kinds the deflate-style adapter reports. -/
def taxonomy : List Int :=
  [Z_OK, Z_STREAM_END, Z_MEM_ERROR, Z_DATA_ERROR, Z_BUF_ERROR, Z_ERRNO, Z_VERSION_ERROR]

/-! ## The external libraries -/

/-- Result of a library call that fills a buffer: status, destination memory
afterwards, and the length it stored through its length pointer. -/
structure BufResult where
  rc : Int
  mem : List Byte
  len : Nat
deriving DecidableEq, Repr

/-- Result of `lzma_stream_buffer_decode`. -/
structure DecResult where
  rc : Int
  mem : List Byte
  in_pos : Nat
  out_pos : Nat
deriving DecidableEq, Repr

/-- Entry points of the compression libraries, with the argument order of
their C prototypes (allocator and work-memory arguments omitted). -/
structure Native where
  /-- Call `BZ2_bzBuffToBuffCompress(dest, &destLen, source, sourceLen, blockSize100k, verbosity, workFactor)`. -/
  BZ2_bzBuffToBuffCompress : Ptr → Nat → Ptr → Nat → Int → Int → Int → BufResult
  /-- Call `BZ2_bzBuffToBuffDecompress(dest, &destLen, source, sourceLen, small, verbosity)`. -/
  BZ2_bzBuffToBuffDecompress : Ptr → Nat → Ptr → Nat → Int → Int → BufResult
  /-- Call `LZ4_compressBound(isize)`. -/
  LZ4_compressBound : Int → Int
  /-- Call `LZ4_compress(source, dest, isize)`: returned `int` and `dest` memory. -/
  LZ4_compress : Ptr → Ptr → Int → Int × List Byte
  /-- Call `LZ4_compressHC(source, dest, isize)`. -/
  LZ4_compressHC : Ptr → Ptr → Int → Int × List Byte
  /-- Call `LZ4_decompress_safe(source, dest, compressedSize, maxDecompressedSize)`. -/
  LZ4_decompress_safe : Ptr → Ptr → Int → Int → Int × List Byte
  /-- Call `lzma_stream_buffer_bound(uncompressed_size)`. -/
  lzma_stream_buffer_bound : Nat → Nat
  /-- Call `lzma_easy_buffer_encode(preset, check, NULL, in, in_size, out, &out_pos, out_size)`;
  `len` of the result is the final `out_pos`. -/
  lzma_easy_buffer_encode : Nat → Int → Ptr → Nat → Ptr → Nat → Nat → BufResult
  /-- Call `lzma_stream_buffer_decode(&memlimit, flags, NULL, in, &in_pos, in_size, out, &out_pos, out_size)`. -/
  lzma_stream_buffer_decode : Nat → Nat → Ptr → Nat → Nat → Ptr → Nat → Nat → DecResult
  /-- Call `lzo1x_1_compress(src, src_len, dst, &dst_len, wrkmem)`; `dst_len` is output only. -/
  lzo1x_1_compress : Ptr → Nat → Ptr → BufResult
  /-- Call `lzo1x_decompress(src, src_len, dst, &dst_len, NULL)`; the fourth argument is
  the value of `dst_len` on entry. -/
  lzo1x_decompress : Ptr → Nat → Ptr → Nat → BufResult
  /-- Call `snappy_max_compressed_length(source_length)` of the snappy library. -/
  snappy_max_compressed_length : Nat → Nat
  /-- Call `snappy_compress(input, input_length, compressed, &compressed_length)` of the snappy library. -/
  snappy_compress : Ptr → Nat → Ptr → Nat → snappy_status × List Byte × Nat
  /-- Call `snappy_uncompress(compressed, compressed_length, uncompressed, &uncompressed_length)`. -/
  snappy_uncompress : Ptr → Nat → Ptr → Nat → snappy_status × List Byte × Nat
  /-- Call `compressBound(sourceLen)` of zlib. -/
  compressBound : Nat → Nat
  /-- Call `compress(dest, &destLen, source, sourceLen)` of zlib. -/
  compress : Ptr → Nat → Ptr → Nat → BufResult
  /-- Call `uncompress(dest, &destLen, source, sourceLen)` of zlib. -/
  uncompress : Ptr → Nat → Ptr → Nat → BufResult

/-! ## Process state shared by both adapters -/

/-- The global `codec` pointer: it points at `def_codec` or at one of the
backend objects named by the table (`β` enumerates those objects). -/
inductive CodecPtr (β : Type) where
  | def_codec
  | entry (b : β)
deriving DecidableEq, Repr

/-- Observation log entries: calls of `getenv`, of `exit`, and of the
`bound`, `comp` and `uncomp` members of a backend object. -/
inductive Event (β : Type) where
  | getenv
  | exit
  | bound (b : β) (len : Nat)
  | comp (b : β) (outlen inlen : Nat)
  | uncomp (b : β) (inlen : Nat)
deriving DecidableEq, Repr

structure State (β : Type) where
  codec : CodecPtr β
  log : List (Event β)
deriving DecidableEq, Repr

/-- State at program start: `codec = &def_codec`, nothing observed yet. -/
def State.init (β : Type) : State β := ⟨.def_codec, []⟩

/-- Append an observation. -/
def State.logged {β : Type} (st : State β) (e : Event β) : State β :=
  { st with log := st.log ++ [e] }

/-- Outcome of a call: it returns a value and a new state, or the process has
exited with the given status. -/
inductive Outcome (σ α : Type) where
  | ret (val : α) (st : σ)
  | exit (status : Int) (st : σ)
deriving DecidableEq, Repr

/-- Sequencing: continue after a call that returned. -/
def Outcome.bind {σ α γ : Type} (x : Outcome σ α) (f : α → σ → Outcome σ γ) : Outcome σ γ :=
  match x with
  | .ret v st => f v st
  | .exit s st => .exit s st

/-- State in which a call left the process. -/
def Outcome.state {σ α : Type} : Outcome σ α → σ
  | .ret _ st => st
  | .exit _ st => st

/-- Whether the call returned to its caller. -/
def Outcome.returned {σ α : Type} : Outcome σ α → Bool
  | .ret _ _ => true
  | .exit _ _ => false

/-! ## `pzlib.c` -/

namespace pzlib

/-- The backend objects `c_bzip2`, ..., `c_snappy` of `pzlib.c`. -/
inductive Backend where
  | c_bzip2
  | c_lz4
  | c_lz4hc
  | c_lzma
  | c_lzo
  | c_snappy
deriving DecidableEq, Repr

/-- Type `uLong (bfunc)(uLong len)`. -/
abbrev bfunc := Nat → Nat

/-- Type `int (cfunc)(Bytef *out, uLongf *outlen, const Bytef *in, uLong inlen, int level)`;
the result holds the status, the memory of `out` and `*outlen` afterwards. -/
abbrev cfunc := Ptr → Nat → Ptr → Nat → Int → BufResult

/-- Type `int (ufunc)(Bytef *out, uLongf *outlen, const Bytef *in, uLong inlen)`. -/
abbrev ufunc := Ptr → Nat → Ptr → Nat → BufResult

structure codec_t where
  bound : bfunc
  comp : cfunc
  uncomp : ufunc

structure ctable_t where
  name : String
  cptr : Backend
deriving DecidableEq, Repr

def bzip2_bfunc (len : Nat) : Nat := wadd len 32

def bzip2_err (err : Int) : Int :=
  if err = BZ_OK then Z_OK
  else if err = BZ_MEM_ERROR then Z_MEM_ERROR
  else if err = BZ_DATA_ERROR then Z_DATA_ERROR
  else if err = BZ_OUTBUFF_FULL then Z_BUF_ERROR
  else Z_VERSION_ERROR

def bzip2_cfunc (N : Native) (out : Ptr) (outlen : Nat) (inp : Ptr) (inlen : Nat) (level : Int) :
    BufResult :=
  let dstlen := toUInt outlen
  let r := N.BZ2_bzBuffToBuffCompress out dstlen inp (toUInt inlen) level 0 0
  ⟨bzip2_err r.rc, r.mem, toUInt r.len⟩

def bzip2_ufunc (N : Native) (out : Ptr) (outlen : Nat) (inp : Ptr) (inlen : Nat) : BufResult :=
  let destlen := toUInt outlen
  let r := N.BZ2_bzBuffToBuffDecompress out destlen inp (toUInt inlen) 0 0
  ⟨bzip2_err r.rc, r.mem, toUInt r.len⟩

def c_bzip2 (N : Native) : codec_t := ⟨bzip2_bfunc, bzip2_cfunc N, bzip2_ufunc N⟩

def lz4_bfunc (N : Native) (len : Nat) : Nat := ofInt (N.LZ4_compressBound (toInt32 len))

def lz4_cfunc (N : Native) (out : Ptr) (_outlen : Nat) (inp : Ptr) (inlen : Nat) (_level : Int) :
    BufResult :=
  let r := N.LZ4_compress inp out (toInt32 inlen)
  let outlen := ofInt r.1
  ⟨if outlen ≠ 0 then 0 else Z_DATA_ERROR, r.2, outlen⟩

def lz4_ufunc (N : Native) (out : Ptr) (outlen : Nat) (inp : Ptr) (inlen : Nat) : BufResult :=
  let r := N.LZ4_decompress_safe inp out (toInt32 inlen) (toInt32 outlen)
  let rc := r.1
  if rc < 0 then ⟨Z_DATA_ERROR, r.2, outlen⟩
  else ⟨0, r.2, ofInt rc⟩

def c_lz4 (N : Native) : codec_t := ⟨lz4_bfunc N, lz4_cfunc N, lz4_ufunc N⟩

def lz4hc_cfunc (N : Native) (out : Ptr) (_outlen : Nat) (inp : Ptr) (inlen : Nat) (_level : Int) :
    BufResult :=
  let r := N.LZ4_compressHC inp out (toInt32 inlen)
  let outlen := ofInt r.1
  ⟨if outlen ≠ 0 then 0 else Z_DATA_ERROR, r.2, outlen⟩

def c_lz4hc (N : Native) : codec_t := ⟨lz4_bfunc N, lz4hc_cfunc N, lz4_ufunc N⟩

def lzma_bfunc (N : Native) (len : Nat) : Nat := N.lzma_stream_buffer_bound len % WORD

def lzma_err (err : Int) : Int :=
  if err = LZMA_OK then Z_OK
  else if err = LZMA_STREAM_END then Z_STREAM_END
  else if err = LZMA_MEM_ERROR then Z_MEM_ERROR
  else if err = LZMA_FORMAT_ERROR then Z_DATA_ERROR
  else if err = LZMA_DATA_ERROR then Z_DATA_ERROR
  else if err = LZMA_BUF_ERROR then Z_BUF_ERROR
  else Z_VERSION_ERROR

def lzma_cfunc (N : Native) (out : Ptr) (outlen : Nat) (inp : Ptr) (inlen : Nat) (level : Int) :
    BufResult :=
  let outpos := 0
  let r := N.lzma_easy_buffer_encode (ofInt32 level) LZMA_CHECK_NONE inp inlen out outpos outlen
  ⟨lzma_err r.rc, r.mem, r.len % WORD⟩

def lzma_ufunc (N : Native) (out : Ptr) (outlen : Nat) (inp : Ptr) (inlen : Nat) : BufResult :=
  let memlimit := WORD - 1
  let inpos := 0
  let outpos := 0
  let r := N.lzma_stream_buffer_decode memlimit 0 inp inpos inlen out outpos outlen
  ⟨lzma_err r.rc, r.mem, r.out_pos % WORD⟩

def c_lzma (N : Native) : codec_t := ⟨lzma_bfunc N, lzma_cfunc N, lzma_ufunc N⟩

def lzo_bfunc (len : Nat) : Nat := wadd len 16

def lzo_err (err : Int) : Int :=
  if err = LZO_E_OK then Z_OK
  else if err = LZO_E_ERROR then Z_ERRNO
  else if err = LZO_E_OUT_OF_MEMORY then Z_MEM_ERROR
  else if err = LZO_E_NOT_COMPRESSIBLE then Z_DATA_ERROR
  else if err = LZO_E_INPUT_OVERRUN then Z_DATA_ERROR
  else if err = LZO_E_OUTPUT_OVERRUN then Z_BUF_ERROR
  else if err = LZO_E_EOF_NOT_FOUND then Z_DATA_ERROR
  else if err = LZO_E_INPUT_NOT_CONSUMED then Z_DATA_ERROR
  else if err = LZO_E_NOT_YET_IMPLEMENTED then Z_VERSION_ERROR
  else if err = LZO_E_INVALID_ARGUMENT then Z_DATA_ERROR
  else Z_VERSION_ERROR

def lzo_cfunc (N : Native) (out : Ptr) (_outlen : Nat) (inp : Ptr) (inlen : Nat) (_level : Int) :
    BufResult :=
  let r := N.lzo1x_1_compress inp inlen out
  ⟨lzo_err r.rc, r.mem, r.len % WORD⟩

def lzo_ufunc (N : Native) (out : Ptr) (outlen : Nat) (inp : Ptr) (inlen : Nat) : BufResult :=
  let r := N.lzo1x_decompress inp inlen out outlen
  ⟨lzo_err r.rc, r.mem, r.len % WORD⟩

def c_lzo (N : Native) : codec_t := ⟨lzo_bfunc, lzo_cfunc N, lzo_ufunc N⟩

def snappy_errs : List Int := [Z_OK, Z_DATA_ERROR, Z_BUF_ERROR]

/-- The array access `snappy_errs[i]` for an arbitrary integer index; `none`
when the index is outside the three-element array (undefined in C). -/
def snappy_errs_at (i : Int) : Option Int :=
  if i < 0 then none else snappy_errs[i.toNat]?

/-- The array access `snappy_errs[s]` for a value of the enumeration type. -/
def snappy_errs_get : snappy_status → Int
  | .SNAPPY_OK => snappy_errs.get ⟨0, by decide⟩
  | .SNAPPY_INVALID_INPUT => snappy_errs.get ⟨1, by decide⟩
  | .SNAPPY_BUFFER_TOO_SMALL => snappy_errs.get ⟨2, by decide⟩

def snappy_bfunc (N : Native) (len : Nat) : Nat := N.snappy_max_compressed_length len % WORD

def snappy_cfunc (N : Native) (out : Ptr) (outlen : Nat) (inp : Ptr) (inlen : Nat) (_level : Int) :
    BufResult :=
  let r := N.snappy_compress inp inlen out outlen
  ⟨snappy_errs_get r.1, r.2.1, r.2.2 % WORD⟩

def snappy_ufunc (N : Native) (out : Ptr) (outlen : Nat) (inp : Ptr) (inlen : Nat) : BufResult :=
  let r := N.snappy_uncompress inp inlen out outlen
  ⟨snappy_errs_get r.1, r.2.1, r.2.2 % WORD⟩

def c_snappy (N : Native) : codec_t := ⟨snappy_bfunc N, snappy_cfunc N, snappy_ufunc N⟩

/-- The object a table pointer refers to. -/
def deref (N : Native) : Backend → codec_t
  | .c_bzip2 => c_bzip2 N
  | .c_lz4 => c_lz4 N
  | .c_lz4hc => c_lz4hc N
  | .c_lzma => c_lzma N
  | .c_lzo => c_lzo N
  | .c_snappy => c_snappy N

/-- The table `ctable` (all `USE_*` switches at their default 1); the
terminating `{NULL, NULL}` entry is the end of the list. -/
def ctable : List ctable_t :=
  [⟨"bzip2", .c_bzip2⟩, ⟨"lz4", .c_lz4⟩, ⟨"lz4hc", .c_lz4hc⟩, ⟨"lzma", .c_lzma⟩,
   ⟨"lzo", .c_lzo⟩, ⟨"snappy", .c_snappy⟩]

/-- The `for` loop of `set_codec` over the remaining table entries: the entry
stored into `codec`, or `none` when the loop runs off the end. -/
def set_codec_loop (ptr : String) : List ctable_t → Option Backend
  | [] => none
  | e :: rest => if ptr = e.name then some e.cptr else set_codec_loop ptr rest

/-- Function `set_codec()`; `env` is what `getenv("POLYZ")` yields at the time
of the call.  On return the value is the table pointer just stored in `codec`. -/
def set_codec (env : Option String) (st : State Backend) : Outcome (State Backend) Backend :=
  let st := st.logged .getenv
  match env with
  | none => .exit 1 (st.logged .exit)
  | some ptr =>
    match set_codec_loop ptr ctable with
    | some b => .ret b { st with codec := .entry b }
    | none => .exit 1 (st.logged .exit)

def def_bfunc (N : Native) (env : Option String) (st : State Backend) (len : Nat) :
    Outcome (State Backend) Nat :=
  (set_codec env st).bind fun b st =>
    .ret ((deref N b).bound len) (st.logged (.bound b len))

def def_cfunc (N : Native) (env : Option String) (st : State Backend)
    (out : Ptr) (outlen : Nat) (inp : Ptr) (inlen : Nat) (level : Int) :
    Outcome (State Backend) BufResult :=
  (set_codec env st).bind fun b st =>
    .ret ((deref N b).comp out outlen inp inlen level) (st.logged (.comp b outlen inlen))

def def_ufunc (N : Native) (env : Option String) (st : State Backend)
    (out : Ptr) (outlen : Nat) (inp : Ptr) (inlen : Nat) :
    Outcome (State Backend) BufResult :=
  (set_codec env st).bind fun b st =>
    .ret ((deref N b).uncomp out outlen inp inlen) (st.logged (.uncomp b inlen))

/-- The call `codec->bound(len)`. -/
def codec_bound (N : Native) (env : Option String) (st : State Backend) (len : Nat) :
    Outcome (State Backend) Nat :=
  match st.codec with
  | .def_codec => def_bfunc N env st len
  | .entry b => .ret ((deref N b).bound len) (st.logged (.bound b len))

/-- The call `codec->comp(out, outlen, in, inlen, level)`. -/
def codec_comp (N : Native) (env : Option String) (st : State Backend)
    (out : Ptr) (outlen : Nat) (inp : Ptr) (inlen : Nat) (level : Int) :
    Outcome (State Backend) BufResult :=
  match st.codec with
  | .def_codec => def_cfunc N env st out outlen inp inlen level
  | .entry b => .ret ((deref N b).comp out outlen inp inlen level) (st.logged (.comp b outlen inlen))

/-- The call `codec->uncomp(out, outlen, in, inlen)`. -/
def codec_uncomp (N : Native) (env : Option String) (st : State Backend)
    (out : Ptr) (outlen : Nat) (inp : Ptr) (inlen : Nat) :
    Outcome (State Backend) BufResult :=
  match st.codec with
  | .def_codec => def_ufunc N env st out outlen inp inlen
  | .entry b => .ret ((deref N b).uncomp out outlen inp inlen) (st.logged (.uncomp b inlen))

def compressBound (N : Native) (env : Option String) (st : State Backend) (len : Nat) :
    Outcome (State Backend) Nat :=
  (codec_bound N env st len).bind fun v st => .ret (wadd v 1) st

def compress2 (N : Native) (env : Option String) (st : State Backend)
    (out : Ptr) (outlen : Nat) (inp : Ptr) (inlen : Nat) (level : Int) :
    Outcome (State Backend) BufResult :=
  let out : Ptr := ⟨out.write [8], out.off⟩
  let outlen := wsub outlen 1
  (codec_comp N env st (out.add 1) outlen inp inlen level).bind fun r st =>
    .ret ⟨r.rc, r.mem, wadd r.len 1⟩ st

def compress (N : Native) (env : Option String) (st : State Backend)
    (out : Ptr) (outlen : Nat) (inp : Ptr) (inlen : Nat) :
    Outcome (State Backend) BufResult :=
  compress2 N env st out outlen inp inlen Z_DEFAULT_COMPRESSION

def uncompress (N : Native) (env : Option String) (st : State Backend)
    (out : Ptr) (outlen : Nat) (inp : Ptr) (inlen : Nat) :
    Outcome (State Backend) BufResult :=
  codec_uncomp N env st out outlen (inp.add 1) (wsub inlen 1)

end pzlib

/-! ## `pzsnap.cc` -/

namespace pzsnap

/-- The backend objects `c_bzip2`, ..., `c_zlib` of `pzsnap.cc`. -/
inductive Backend where
  | c_bzip2
  | c_lz4
  | c_lz4hc
  | c_lzma
  | c_lzo
  | c_zlib
deriving DecidableEq, Repr

/-- Type `size_t (bfunc)(size_t len)`. -/
abbrev bfunc := Nat → Nat

/-- Type `void (cfunc)(const char *in, size_t inlen, char *out, size_t *outlen)`;
the result holds the memory of `out` and `*outlen` afterwards. -/
abbrev cfunc := Ptr → Nat → Ptr → Nat → List Byte × Nat

/-- Type `bool (ufunc)(const char *in, size_t inlen, char *out)`; the result
holds the returned flag and the memory of `out` afterwards. -/
abbrev ufunc := Ptr → Nat → Ptr → Bool × List Byte

structure codec_t where
  bound : bfunc
  comp : cfunc
  uncomp : ufunc

structure ctable_t where
  name : String
  cptr : Backend
deriving DecidableEq, Repr

def bzip2_bfunc (len : Nat) : Nat := wadd len 16

def bzip2_cfunc (N : Native) (inp : Ptr) (inlen : Nat) (out : Ptr) (outlen : Nat) :
    List Byte × Nat :=
  let destlen := toUInt outlen
  let r := N.BZ2_bzBuffToBuffCompress out destlen inp (toUInt inlen) 9 0 0
  (r.mem, toUInt r.len)

def bzip2_ufunc (N : Native) (inp : Ptr) (inlen : Nat) (out : Ptr) : Bool × List Byte :=
  let origlen := sizeValue ((inp.sub SIZEOF_SIZE_T).read SIZEOF_SIZE_T)
  let destlen := toUInt origlen
  let r := N.BZ2_bzBuffToBuffDecompress out destlen inp (toUInt inlen) 0 0
  (decide (r.rc = BZ_OK), r.mem)

def c_bzip2 (N : Native) : codec_t := ⟨bzip2_bfunc, bzip2_cfunc N, bzip2_ufunc N⟩

def lz4_bfunc (N : Native) (len : Nat) : Nat := ofInt (N.LZ4_compressBound (toInt32 len))

def lz4_cfunc (N : Native) (inp : Ptr) (inlen : Nat) (out : Ptr) (_outlen : Nat) :
    List Byte × Nat :=
  let r := N.LZ4_compress inp out (toInt32 inlen)
  (r.2, ofInt r.1)

def lz4_ufunc (N : Native) (inp : Ptr) (inlen : Nat) (out : Ptr) : Bool × List Byte :=
  let origlen := sizeValue ((inp.sub SIZEOF_SIZE_T).read SIZEOF_SIZE_T)
  let r := N.LZ4_decompress_safe inp out (toInt32 inlen) (toInt32 origlen)
  let origlen : Nat := ofInt r.1
  (decide (origlen ≥ 0), r.2)

def c_lz4 (N : Native) : codec_t := ⟨lz4_bfunc N, lz4_cfunc N, lz4_ufunc N⟩

def lz4hc_cfunc (N : Native) (inp : Ptr) (inlen : Nat) (out : Ptr) (_outlen : Nat) :
    List Byte × Nat :=
  let r := N.LZ4_compressHC inp out (toInt32 inlen)
  (r.2, ofInt r.1)

def c_lz4hc (N : Native) : codec_t := ⟨lz4_bfunc N, lz4hc_cfunc N, lz4_ufunc N⟩

def lzma_bfunc (N : Native) (len : Nat) : Nat := N.lzma_stream_buffer_bound len % WORD

def lzma_cfunc (N : Native) (inp : Ptr) (inlen : Nat) (out : Ptr) (outlen : Nat) :
    List Byte × Nat :=
  let r := N.lzma_easy_buffer_encode 2 LZMA_CHECK_NONE inp inlen out outlen outlen
  (r.mem, r.len % WORD)

def lzma_ufunc (N : Native) (inp : Ptr) (inlen : Nat) (out : Ptr) : Bool × List Byte :=
  let memlimit := WORD - 1
  let inpos := 0
  let outpos := 0
  let outsize := sizeValue ((inp.sub SIZEOF_SIZE_T).read SIZEOF_SIZE_T)
  let r := N.lzma_stream_buffer_decode memlimit 0 inp inpos inlen out outpos outsize
  (decide (r.rc = 0), r.mem)

def c_lzma (N : Native) : codec_t := ⟨lzma_bfunc N, lzma_cfunc N, lzma_ufunc N⟩

def lzo_bfunc (len : Nat) : Nat := wadd len 16

def lzo_cfunc (N : Native) (inp : Ptr) (inlen : Nat) (out : Ptr) (_outlen : Nat) :
    List Byte × Nat :=
  let r := N.lzo1x_1_compress inp inlen out
  let dstlen := r.len % WORD
  (r.mem, dstlen)

def lzo_ufunc (N : Native) (inp : Ptr) (inlen : Nat) (out : Ptr) : Bool × List Byte :=
  let outsize := sizeValue ((inp.sub SIZEOF_SIZE_T).read SIZEOF_SIZE_T)
  let dstlen := outsize
  let r := N.lzo1x_decompress inp inlen out dstlen
  (decide (r.rc = 0), r.mem)

def c_lzo (N : Native) : codec_t := ⟨lzo_bfunc, lzo_cfunc N, lzo_ufunc N⟩

def zlib_bfunc (N : Native) (len : Nat) : Nat := N.compressBound len % WORD

def zlib_cfunc (N : Native) (inp : Ptr) (inlen : Nat) (out : Ptr) (outlen : Nat) :
    List Byte × Nat :=
  let r := N.compress out outlen inp inlen
  (r.mem, r.len % WORD)

def zlib_ufunc (N : Native) (inp : Ptr) (inlen : Nat) (out : Ptr) : Bool × List Byte :=
  let outlen := sizeValue ((inp.sub SIZEOF_SIZE_T).read SIZEOF_SIZE_T)
  let r := N.uncompress out outlen inp inlen
  (decide (r.rc = Z_OK), r.mem)

def c_zlib (N : Native) : codec_t := ⟨zlib_bfunc N, zlib_cfunc N, zlib_ufunc N⟩

/-- The object a table pointer refers to. -/
def deref (N : Native) : Backend → codec_t
  | .c_bzip2 => c_bzip2 N
  | .c_lz4 => c_lz4 N
  | .c_lz4hc => c_lz4hc N
  | .c_lzma => c_lzma N
  | .c_lzo => c_lzo N
  | .c_zlib => c_zlib N

/-- The table `ctable` (all `USE_*` switches at their default 1); the
terminating `{NULL, NULL}` entry is the end of the list. -/
def ctable : List ctable_t :=
  [⟨"bzip2", .c_bzip2⟩, ⟨"lz4", .c_lz4⟩, ⟨"lz4hc", .c_lz4hc⟩, ⟨"lzma", .c_lzma⟩,
   ⟨"lzo", .c_lzo⟩, ⟨"zlib", .c_zlib⟩]

/-- The `for` loop of `set_codec` over the remaining table entries: the entry
stored into `codec`, or `none` when the loop runs off the end. -/
def set_codec_loop (ptr : String) : List ctable_t → Option Backend
  | [] => none
  | e :: rest => if ptr = e.name then some e.cptr else set_codec_loop ptr rest

/-- Function `set_codec()`; `env` is what `getenv("POLYZ")` yields at the time
of the call.  On return the value is the table pointer just stored in `codec`. -/
def set_codec (env : Option String) (st : State Backend) : Outcome (State Backend) Backend :=
  let st := st.logged .getenv
  match env with
  | none => .exit 1 (st.logged .exit)
  | some ptr =>
    match set_codec_loop ptr ctable with
    | some b => .ret b { st with codec := .entry b }
    | none => .exit 1 (st.logged .exit)

def def_bfunc (N : Native) (env : Option String) (st : State Backend) (len : Nat) :
    Outcome (State Backend) Nat :=
  (set_codec env st).bind fun b st =>
    .ret ((deref N b).bound len) (st.logged (.bound b len))

def def_cfunc (N : Native) (env : Option String) (st : State Backend)
    (inp : Ptr) (inlen : Nat) (out : Ptr) (outlen : Nat) :
    Outcome (State Backend) (List Byte × Nat) :=
  (set_codec env st).bind fun b st =>
    .ret ((deref N b).comp inp inlen out outlen) (st.logged (.comp b outlen inlen))

def def_ufunc (N : Native) (env : Option String) (st : State Backend)
    (inp : Ptr) (inlen : Nat) (out : Ptr) :
    Outcome (State Backend) (Bool × List Byte) :=
  (set_codec env st).bind fun b st =>
    .ret ((deref N b).uncomp inp inlen out) (st.logged (.uncomp b inlen))

/-- The call `codec->bound(len)`. -/
def codec_bound (N : Native) (env : Option String) (st : State Backend) (len : Nat) :
    Outcome (State Backend) Nat :=
  match st.codec with
  | .def_codec => def_bfunc N env st len
  | .entry b => .ret ((deref N b).bound len) (st.logged (.bound b len))

/-- The call `codec->comp(in, inlen, out, outlen)`. -/
def codec_comp (N : Native) (env : Option String) (st : State Backend)
    (inp : Ptr) (inlen : Nat) (out : Ptr) (outlen : Nat) :
    Outcome (State Backend) (List Byte × Nat) :=
  match st.codec with
  | .def_codec => def_cfunc N env st inp inlen out outlen
  | .entry b => .ret ((deref N b).comp inp inlen out outlen) (st.logged (.comp b outlen inlen))

/-- The call `codec->uncomp(in, inlen, out)`. -/
def codec_uncomp (N : Native) (env : Option String) (st : State Backend)
    (inp : Ptr) (inlen : Nat) (out : Ptr) :
    Outcome (State Backend) (Bool × List Byte) :=
  match st.codec with
  | .def_codec => def_ufunc N env st inp inlen out
  | .entry b => .ret ((deref N b).uncomp inp inlen out) (st.logged (.uncomp b inlen))

/-- Function `snappy::GetUncompressedLength`: the returned flag and `*result`
afterwards. -/
def GetUncompressedLength (inp : Ptr) (inlen : Nat) (result : Nat) : Bool × Nat :=
  if inlen < SIZEOF_SIZE_T then (false, result)
  else (true, sizeValue (inp.read SIZEOF_SIZE_T))

/-- Function `snappy::RawCompress`: the memory of `out` and `*outlen` afterwards. -/
def RawCompress (N : Native) (env : Option String) (st : State Backend)
    (inp : Ptr) (inlen : Nat) (out : Ptr) (outlen : Nat) :
    Outcome (State Backend) (List Byte × Nat) :=
  let out : Ptr := ⟨out.write (sizeBytes SIZEOF_SIZE_T inlen), out.off⟩
  let outlen := wsub outlen SIZEOF_SIZE_T
  (codec_comp N env st inp inlen (out.add SIZEOF_SIZE_T) outlen).bind fun r st =>
    .ret (r.1, wadd r.2 SIZEOF_SIZE_T) st

/-- Function `snappy::RawUncompress`. -/
def RawUncompress (N : Native) (env : Option String) (st : State Backend)
    (inp : Ptr) (inlen : Nat) (out : Ptr) :
    Outcome (State Backend) (Bool × List Byte) :=
  codec_uncomp N env st (inp.add SIZEOF_SIZE_T) (wsub inlen SIZEOF_SIZE_T) out

/-- Function `snappy::MaxCompressedLength`. -/
def MaxCompressedLength (N : Native) (env : Option String) (st : State Backend) (len : Nat) :
    Outcome (State Backend) Nat :=
  (codec_bound N env st len).bind fun v st => .ret (wadd v SIZEOF_SIZE_T) st

/-- The C entry point `snappy_compress`: status, memory of `out`, `*outlen`. -/
def snappy_compress (N : Native) (env : Option String) (st : State Backend)
    (inp : Ptr) (inlen : Nat) (out : Ptr) (outlen : Nat) :
    Outcome (State Backend) BufResult :=
  (RawCompress N env st inp inlen out outlen).bind fun r st =>
    .ret ⟨0, r.1, r.2⟩ st

/-- The C entry point `snappy_uncompress`: status, memory of `out`, `*outlen`. -/
def snappy_uncompress (N : Native) (env : Option String) (st : State Backend)
    (inp : Ptr) (inlen : Nat) (out : Ptr) (outlen : Nat) :
    Outcome (State Backend) BufResult :=
  (RawUncompress N env st inp inlen out).bind fun r st =>
    .ret ⟨0, r.2, outlen⟩ st

/-- The C entry point `snappy_max_compressed_length`. -/
def snappy_max_compressed_length (N : Native) (env : Option String) (st : State Backend)
    (len : Nat) : Outcome (State Backend) Nat :=
  MaxCompressedLength N env st len

/-- The C entry point `snappy_uncompressed_length`: status and `*outlen` afterwards. -/
def snappy_uncompressed_length (inp : Ptr) (inlen : Nat) (outlen : Nat) : Int × Nat :=
  let r := GetUncompressedLength inp inlen outlen
  (0, r.2)

end pzsnap

/-! ## Processes: sequences of adapter calls -/

/-- The backend object a log entry belongs to (`none` for `getenv`, `exit`). -/
def Event.backend? {β : Type} : Event β → Option β
  | .getenv => none
  | .exit => none
  | .bound b _ => some b
  | .comp b _ _ => some b
  | .uncomp b _ => some b

namespace pzlib

/-- One adapter call of `pzlib.c` with its arguments. -/
inductive Call where
  | compressBound (len : Nat)
  | compress2 (out : Ptr) (outlen : Nat) (inp : Ptr) (inlen : Nat) (level : Int)
  | uncompress (out : Ptr) (outlen : Nat) (inp : Ptr) (inlen : Nat)
deriving DecidableEq, Repr

/-- What an adapter call hands back. -/
inductive Reply where
  | size (n : Nat)
  | buf (r : BufResult)
deriving DecidableEq, Repr

/-- Perform one adapter call while `POLYZ` has the value `env`. -/
def step (N : Native) (env : Option String) (st : State Backend) :
    Call → Outcome (State Backend) Reply
  | .compressBound len =>
    (compressBound N env st len).bind fun v st => .ret (.size v) st
  | .compress2 out outlen inp inlen level =>
    (compress2 N env st out outlen inp inlen level).bind fun r st => .ret (.buf r) st
  | .uncompress out outlen inp inlen =>
    (uncompress N env st out outlen inp inlen).bind fun r st => .ret (.buf r) st

/-- Perform a sequence of adapter calls; each call is paired with the value
`POLYZ` has at the time it is made.  The run stops when a call exits. -/
def run (N : Native) : List (Option String × Call) → State Backend →
    Outcome (State Backend) (List Reply)
  | [], st => .ret [] st
  | (env, c) :: rest, st =>
    (step N env st c).bind fun r st => (run N rest st).bind fun rs st => .ret (r :: rs) st

end pzlib

namespace pzsnap

/-- One adapter call of `pzsnap.cc` with its arguments. -/
inductive Call where
  | MaxCompressedLength (len : Nat)
  | RawCompress (inp : Ptr) (inlen : Nat) (out : Ptr) (outlen : Nat)
  | RawUncompress (inp : Ptr) (inlen : Nat) (out : Ptr)
deriving DecidableEq, Repr

/-- What an adapter call hands back. -/
inductive Reply where
  | size (n : Nat)
  | buf (r : List Byte × Nat)
  | flag (r : Bool × List Byte)
deriving DecidableEq, Repr

/-- Perform one adapter call while `POLYZ` has the value `env`. -/
def step (N : Native) (env : Option String) (st : State Backend) :
    Call → Outcome (State Backend) Reply
  | .MaxCompressedLength len =>
    (MaxCompressedLength N env st len).bind fun v st => .ret (.size v) st
  | .RawCompress inp inlen out outlen =>
    (RawCompress N env st inp inlen out outlen).bind fun r st => .ret (.buf r) st
  | .RawUncompress inp inlen out =>
    (RawUncompress N env st inp inlen out).bind fun r st => .ret (.flag r) st

/-- Perform a sequence of adapter calls; each call is paired with the value
`POLYZ` has at the time it is made.  The run stops when a call exits. -/
def run (N : Native) : List (Option String × Call) → State Backend →
    Outcome (State Backend) (List Reply)
  | [], st => .ret [] st
  | (env, c) :: rest, st =>
    (step N env st c).bind fun r st => (run N rest st).bind fun rs st => .ret (r :: rs) st

end pzsnap

/-! ## Contracts of the libraries -/

/-- The documented contract of the `out`, `out_pos` and `out_size` arguments
of `lzma_easy_buffer_encode`: bytes are stored only at `out[i]` with
`*out_pos ≤ i < out_size`, and `*out_pos` is updated only when the call
succeeds, in which case it has advanced to a position not beyond `out_size`. -/
structure LzmaEncoderContract (N : Native) : Prop where
  stores_within : ∀ (preset : Nat) (check : Int) (inp : Ptr) (in_size : Nat) (out : Ptr)
    (out_pos out_size i : Nat), ¬ (out.off + out_pos ≤ i ∧ i < out.off + out_size) →
    (N.lzma_easy_buffer_encode preset check inp in_size out out_pos out_size).mem[i]?
      = out.mem[i]?
  pos_kept : ∀ (preset : Nat) (check : Int) (inp : Ptr) (in_size : Nat) (out : Ptr)
    (out_pos out_size : Nat),
    (N.lzma_easy_buffer_encode preset check inp in_size out out_pos out_size).rc ≠ LZMA_OK →
    (N.lzma_easy_buffer_encode preset check inp in_size out out_pos out_size).len = out_pos
  pos_moved : ∀ (preset : Nat) (check : Int) (inp : Ptr) (in_size : Nat) (out : Ptr)
    (out_pos out_size : Nat),
    (N.lzma_easy_buffer_encode preset check inp in_size out out_pos out_size).rc = LZMA_OK →
    out_pos ≤ (N.lzma_easy_buffer_encode preset check inp in_size out out_pos out_size).len ∧
    (N.lzma_easy_buffer_encode preset check inp in_size out out_pos out_size).len ≤ out_size

/-! ## A reference instance of the libraries

Every encoder stores its input verbatim (the bzip2 one behind the two magic
bytes `B Z`) and every decoder copies it back, each honouring the capacity
it is told.  It instantiates the library parameter wherever a concrete run
is evaluated. -/

/-- Copy `n` source bytes to `dst + pos` when they fit below `cap`; report
`full` otherwise and leave everything as it was. -/
def storeCopy (full : Int) (src : Ptr) (n : Nat) (dst : Ptr) (pos cap : Nat) : BufResult :=
  if pos + (src.read n).length ≤ cap then
    ⟨0, (dst.add pos).write (src.read n), pos + (src.read n).length⟩
  else ⟨full, dst.mem, pos⟩

/-- The verbatim-copy instance of `Native`. -/
def storeNative : Native where
  BZ2_bzBuffToBuffCompress := fun dest destLen source sourceLen _ _ _ =>
    if 2 + (source.read sourceLen).length ≤ destLen then
      ⟨BZ_OK, dest.write ([66, 90] ++ source.read sourceLen), 2 + (source.read sourceLen).length⟩
    else ⟨BZ_OUTBUFF_FULL, dest.mem, destLen⟩
  BZ2_bzBuffToBuffDecompress := fun dest destLen source sourceLen _ _ =>
    if (source.read sourceLen).take 2 = [66, 90] then
      storeCopy BZ_OUTBUFF_FULL (source.add 2) (sourceLen - 2) dest 0 destLen
    else ⟨BZ_DATA_ERROR, dest.mem, destLen⟩
  LZ4_compressBound := fun isize => isize
  LZ4_compress := fun source dest isize =>
    (((source.read isize.toNat).length : Nat), dest.write (source.read isize.toNat))
  LZ4_compressHC := fun source dest isize =>
    (((source.read isize.toNat).length : Nat), dest.write (source.read isize.toNat))
  LZ4_decompress_safe := fun source dest csize maxsize =>
    if csize < 0 ∨ maxsize < csize then (-1, dest.mem)
    else (csize, dest.write (source.read csize.toNat))
  lzma_stream_buffer_bound := fun n => n
  lzma_easy_buffer_encode := fun _ _ inp in_size out out_pos out_size =>
    storeCopy LZMA_BUF_ERROR inp in_size out out_pos out_size
  lzma_stream_buffer_decode := fun _ _ inp in_pos in_size out out_pos out_size =>
    let r := storeCopy LZMA_BUF_ERROR (inp.add in_pos) (in_size - in_pos) out out_pos out_size
    ⟨r.rc, r.mem, if r.rc = 0 then in_size else in_pos, r.len⟩
  lzo1x_1_compress := fun src src_len dst =>
    ⟨LZO_E_OK, dst.write (src.read src_len), (src.read src_len).length⟩
  lzo1x_decompress := fun src src_len dst _ =>
    ⟨LZO_E_OK, dst.write (src.read src_len), (src.read src_len).length⟩
  snappy_max_compressed_length := fun n => n
  snappy_compress := fun inp n out cap =>
    if (inp.read n).length ≤ cap then (.SNAPPY_OK, out.write (inp.read n), (inp.read n).length)
    else (.SNAPPY_BUFFER_TOO_SMALL, out.mem, cap)
  snappy_uncompress := fun inp n out cap =>
    if (inp.read n).length ≤ cap then (.SNAPPY_OK, out.write (inp.read n), (inp.read n).length)
    else (.SNAPPY_BUFFER_TOO_SMALL, out.mem, cap)
  compressBound := fun n => n
  compress := fun dest destLen source sourceLen =>
    storeCopy Z_BUF_ERROR source sourceLen dest 0 destLen
  uncompress := fun dest destLen source sourceLen =>
    storeCopy Z_BUF_ERROR source sourceLen dest 0 destLen

/-! ## Memory and machine-word lemmas -/

/-- Helper: storing keeps the size of the memory block. -/
theorem write_length (p : Ptr) (bs : List Byte) : (p.write bs).length = p.mem.length := by
  simp only [Ptr.write, List.length_take, List.length_append, List.length_drop]
  omega

/-- Helper: bytes stored inside the block are read back. -/
theorem read_write (p : Ptr) (bs : List Byte) (h : p.off + bs.length ≤ p.mem.length) :
    (Ptr.mk (p.write bs) p.off).read bs.length = bs := by
  simp only [Ptr.read, Ptr.write]
  have h1 : (List.take p.off p.mem).length = p.off := by
    simp only [List.length_take]; omega
  have hL : (List.take p.off p.mem ++ bs ++ List.drop (p.off + bs.length) p.mem).length
      ≤ p.mem.length := by
    simp only [List.length_append, List.length_take, List.length_drop]; omega
  rw [List.take_of_length_le hL, List.append_assoc, List.drop_left' h1, List.take_left' rfl]

/-- Helper: bytes outside the stored range are as before. -/
theorem getElem?_write (p : Ptr) (bs : List Byte) (i : Nat)
    (h : i < p.off ∨ p.off + bs.length ≤ i) : (p.write bs)[i]? = p.mem[i]? := by
  simp only [Ptr.write, List.getElem?_take]
  by_cases hi : i < p.mem.length
  · simp only [hi, if_true]
    rcases h with h | h
    · rw [List.append_assoc, List.getElem?_append_left (by simp only [List.length_take]; omega),
        List.getElem?_take_of_lt h]
    · rw [List.getElem?_append_right (by
        simp only [List.length_append, List.length_take]; omega)]
      simp only [List.length_append, List.length_take, List.getElem?_drop]
      congr 1
      omega
  · simp only [hi, if_false]
    exact (List.getElem?_eq_none (by omega)).symm

/-- Helper: a read is determined by the bytes in its range. -/
theorem read_congr (m1 m2 : List Byte) (off n : Nat)
    (h : ∀ i, off ≤ i → i < off + n → m1[i]? = m2[i]?) :
    (Ptr.mk m1 off).read n = (Ptr.mk m2 off).read n := by
  simp only [Ptr.read]
  apply List.ext_getElem?
  intro j
  simp only [List.getElem?_take, List.getElem?_drop]
  by_cases hj : j < n
  · simp only [hj, if_true]
    exact h (off + j) (by omega) (by omega)
  · simp only [hj, if_false]

/-- Helper: a prefix of a read is a shorter read. -/
theorem read_take (p : Ptr) (k n : Nat) (h : k ≤ n) : (p.read n).take k = p.read k := by
  simp only [Ptr.read, List.take_take, Nat.min_eq_left h]

/-- Helper: the value of a `size_t` is recovered from its bytes. -/
theorem sizeValue_sizeBytes (k n : Nat) (h : n < 256 ^ k) : sizeValue (sizeBytes k n) = n := by
  induction k generalizing n with
  | zero => simp at h; simp [sizeBytes, sizeValue, h]
  | succ k ih =>
    have h2 : n / 256 < 256 ^ k := by
      rw [Nat.div_lt_iff_lt_mul (by decide)]
      rw [pow_succ] at h
      exact h
    simp only [sizeBytes, sizeValue, byteOf, ih _ h2]
    omega

/-- Helper: the object representation of a `size_t` has `k` bytes. -/
theorem sizeBytes_length (k n : Nat) : (sizeBytes k n).length = k := by
  induction k generalizing n with
  | zero => rfl
  | succ k ih => simp [sizeBytes, ih]

/-- Helper: subtracting and adding back the same amount gives the word back. -/
theorem wadd_wsub (a k : Nat) (ha : a < WORD) : wadd (wsub a k) k = a := by
  unfold wadd wsub WORD at *
  omega

/-! ## Error normalisation (`pzlib.c`) -/

/-- Helper: `bzip2_err` always lands in the shared taxonomy. -/
theorem bzip2_err_mem (e : Int) : pzlib.bzip2_err e ∈ taxonomy := by
  unfold pzlib.bzip2_err taxonomy
  split_ifs <;> simp

/-- Helper: `lzma_err` always lands in the shared taxonomy. -/
theorem lzma_err_mem (e : Int) : pzlib.lzma_err e ∈ taxonomy := by
  unfold pzlib.lzma_err taxonomy
  split_ifs <;> simp

/-- Helper: `lzo_err` always lands in the shared taxonomy. -/
theorem lzo_err_mem (e : Int) : pzlib.lzo_err e ∈ taxonomy := by
  unfold pzlib.lzo_err taxonomy
  split_ifs <;> simp

/-- Helper: the indexed table is defined exactly on the indices 0, 1 and 2. -/
theorem snappy_errs_at_eq (i : Int) :
    pzlib.snappy_errs_at i =
      if i = 0 then some Z_OK else if i = 1 then some Z_DATA_ERROR
      else if i = 2 then some Z_BUF_ERROR else none := by
  unfold pzlib.snappy_errs_at
  by_cases h : i < 0
  · have h0 : i ≠ 0 := by omega
    have h1 : i ≠ 1 := by omega
    have h2 : i ≠ 2 := by omega
    simp [h, h0, h1, h2]
  · obtain ⟨n, rfl⟩ := Int.eq_ofNat_of_zero_le (by omega : 0 ≤ i)
    simp only [h, if_false, Int.toNat_ofNat]
    match n with
    | 0 => rfl
    | 1 => rfl
    | 2 => rfl
    | n + 3 =>
      have h0 : ((n : Int) + 3) ≠ 0 := by omega
      have h1 : ((n : Int) + 3) ≠ 1 := by omega
      have h2 : ((n : Int) + 3) ≠ 2 := by omega
      simp [h0, h1, h2, pzlib.snappy_errs]

/-- C6 (as stated, refuted): the claim asks every native integer status to be
mapped into the taxonomy with `Z_VERSION_ERROR` as the fallback, for the
`snappy_errs` table too; at status 3 the table access is outside the array
and yields no value at all. -/
theorem C6_snappy_errs_no_fallback :
    pzlib.snappy_errs_at 3 = none ∧
    ¬ (∀ code : Int, ∃ v ∈ taxonomy, pzlib.snappy_errs_at code = some v ∧
        (code ∉ [0, 1, 2] → v = Z_VERSION_ERROR)) := by
  refine ⟨by decide, ?_⟩
  intro h
  obtain ⟨v, _, hv, _⟩ := h 3
  have : pzlib.snappy_errs_at 3 = none := by decide
  rw [this] at hv
  exact Option.noConfusion hv

/-- C6 (amended): `bzip2_err`, `lzma_err` and `lzo_err` are total on the
integers, land in the shared taxonomy, and send every code without a `case`
of its own to `Z_VERSION_ERROR`.  The `snappy_errs` table is defined exactly
for the indices 0, 1, 2 (giving `Z_OK`, `Z_DATA_ERROR`, `Z_BUF_ERROR`) and has
no entry, hence no fallback, for any other integer; on the three values of
the `snappy_status` type the access is inside the table and in the taxonomy. -/
theorem C6_error_mapping :
    (∀ e : Int, pzlib.bzip2_err e ∈ taxonomy ∧
      (e ∉ [BZ_OK, BZ_MEM_ERROR, BZ_DATA_ERROR, BZ_OUTBUFF_FULL] →
        pzlib.bzip2_err e = Z_VERSION_ERROR)) ∧
    (∀ e : Int, pzlib.lzma_err e ∈ taxonomy ∧
      (e ∉ [LZMA_OK, LZMA_STREAM_END, LZMA_MEM_ERROR, LZMA_FORMAT_ERROR, LZMA_DATA_ERROR,
            LZMA_BUF_ERROR] → pzlib.lzma_err e = Z_VERSION_ERROR)) ∧
    (∀ e : Int, pzlib.lzo_err e ∈ taxonomy ∧
      (e ∉ [LZO_E_OK, LZO_E_ERROR, LZO_E_OUT_OF_MEMORY, LZO_E_NOT_COMPRESSIBLE,
            LZO_E_INPUT_OVERRUN, LZO_E_OUTPUT_OVERRUN, LZO_E_EOF_NOT_FOUND,
            LZO_E_INPUT_NOT_CONSUMED, LZO_E_NOT_YET_IMPLEMENTED, LZO_E_INVALID_ARGUMENT] →
        pzlib.lzo_err e = Z_VERSION_ERROR)) ∧
    (∀ code : Int, pzlib.snappy_errs_at code =
      if code = 0 then some Z_OK else if code = 1 then some Z_DATA_ERROR
      else if code = 2 then some Z_BUF_ERROR else none) ∧
    (∀ s : snappy_status, pzlib.snappy_errs_get s ∈ taxonomy ∧
      pzlib.snappy_errs_at s.toInt = some (pzlib.snappy_errs_get s)) := by
  refine ⟨fun e => ⟨bzip2_err_mem e, ?_⟩, fun e => ⟨lzma_err_mem e, ?_⟩,
    fun e => ⟨lzo_err_mem e, ?_⟩, snappy_errs_at_eq, ?_⟩
  · intro h
    simp only [List.mem_cons, List.mem_singleton, List.not_mem_nil, or_false, not_or] at h
    obtain ⟨h1, h2, h3, h4⟩ := h
    simp [pzlib.bzip2_err, h1, h2, h3, h4]
  · intro h
    simp only [List.mem_cons, List.mem_singleton, List.not_mem_nil, or_false, not_or] at h
    obtain ⟨h1, h2, h3, h4, h5, h6⟩ := h
    simp [pzlib.lzma_err, h1, h2, h3, h4, h5, h6]
  · intro h
    simp only [List.mem_cons, List.mem_singleton, List.not_mem_nil, or_false, not_or] at h
    obtain ⟨h1, h2, h3, h4, h5, h6, h7, h8, h9, h10⟩ := h
    simp [pzlib.lzo_err, h1, h2, h3, h4, h5, h6, h7, h8, h9, h10]
  · intro s
    cases s <;> exact ⟨by decide, by decide⟩

/-- C6 witness: status 7 has no `case` in `bzip2_err` nor in `lzo_err`, and
status 42 has none in `lzma_err`. -/
theorem C6_error_mapping_witness :
    pzlib.bzip2_err 7 = Z_VERSION_ERROR ∧ pzlib.lzo_err 7 = Z_VERSION_ERROR ∧
    pzlib.lzma_err 42 = Z_VERSION_ERROR :=
  ⟨(C6_error_mapping.1 7).2 (by decide), (C6_error_mapping.2.2.1 7).2 (by decide),
   (C6_error_mapping.2.1 42).2 (by decide)⟩

/-! ## Backend selection (`pzlib`) -/

/-- Helper: the table loop returns the object of the first entry whose name
equals the looked-up string. -/
theorem pzlib_loop_find (v : String) (l : List pzlib.ctable_t) :
    pzlib.set_codec_loop v l = (l.find? fun e => decide (v = e.name)).map (·.cptr) := by
  induction l with
  | nil => rfl
  | cons e rest ih =>
    by_cases h : v = e.name
    · simp [pzlib.set_codec_loop, List.find?, h]
    · simp [pzlib.set_codec_loop, List.find?, h, ih]

/-- Helper: the table loop runs off the end exactly for strings that are not
a name of the table. -/
theorem pzlib_loop_none (v : String) (l : List pzlib.ctable_t) :
    pzlib.set_codec_loop v l = none ↔ v ∉ l.map (·.name) := by
  induction l with
  | nil => simp [pzlib.set_codec_loop]
  | cons e rest ih =>
    by_cases h : v = e.name
    · simp [pzlib.set_codec_loop, h]
    · simp [pzlib.set_codec_loop, h, ih]

/-- Helper: what `set_codec` does, by cases on the variable and the loop. -/
theorem pzlib_set_codec_eq (env : Option String) (st : State pzlib.Backend) :
    pzlib.set_codec env st =
      match env.bind (fun v => pzlib.set_codec_loop v pzlib.ctable) with
      | some b => .ret b ⟨.entry b, st.log ++ [.getenv]⟩
      | none => .exit 1 ⟨st.codec, st.log ++ [.getenv, .exit]⟩ := by
  cases env with
  | none => simp [pzlib.set_codec, State.logged]
  | some v =>
    simp only [pzlib.set_codec, State.logged, Option.bind]
    cases pzlib.set_codec_loop v pzlib.ctable <;> simp

/-! ## Backend selection (`pzsnap`) -/

/-- Helper: the table loop returns the object of the first entry whose name
equals the looked-up string. -/
theorem pzsnap_loop_find (v : String) (l : List pzsnap.ctable_t) :
    pzsnap.set_codec_loop v l = (l.find? fun e => decide (v = e.name)).map (·.cptr) := by
  induction l with
  | nil => rfl
  | cons e rest ih =>
    by_cases h : v = e.name
    · simp [pzsnap.set_codec_loop, List.find?, h]
    · simp [pzsnap.set_codec_loop, List.find?, h, ih]

/-- Helper: the table loop runs off the end exactly for strings that are not
a name of the table. -/
theorem pzsnap_loop_none (v : String) (l : List pzsnap.ctable_t) :
    pzsnap.set_codec_loop v l = none ↔ v ∉ l.map (·.name) := by
  induction l with
  | nil => simp [pzsnap.set_codec_loop]
  | cons e rest ih =>
    by_cases h : v = e.name
    · simp [pzsnap.set_codec_loop, h]
    · simp [pzsnap.set_codec_loop, h, ih]

/-- Helper: what `set_codec` does, by cases on the variable and the loop. -/
theorem pzsnap_set_codec_eq (env : Option String) (st : State pzsnap.Backend) :
    pzsnap.set_codec env st =
      match env.bind (fun v => pzsnap.set_codec_loop v pzsnap.ctable) with
      | some b => .ret b ⟨.entry b, st.log ++ [.getenv]⟩
      | none => .exit 1 ⟨st.codec, st.log ++ [.getenv, .exit]⟩ := by
  cases env with
  | none => simp [pzsnap.set_codec, State.logged]
  | some v =>
    simp only [pzsnap.set_codec, State.logged, Option.bind]
    cases pzsnap.set_codec_loop v pzsnap.ctable <;> simp

/-- Helper: `set_codec` exits exactly when the variable is unset or is not a
table name. -/
theorem pzlib_set_codec_exit_iff (env : Option String) (st : State pzlib.Backend) :
    (pzlib.set_codec env st).returned = false ↔
      (env = none ∨ ∃ v, env = some v ∧ v ∉ pzlib.ctable.map (·.name)) := by
  rw [pzlib_set_codec_eq]
  cases env with
  | none => simp [Outcome.returned]
  | some v =>
    simp only [Option.bind, reduceCtorEq, Option.some.injEq, exists_eq_left', false_or]
    rw [← pzlib_loop_none]
    cases pzlib.set_codec_loop v pzlib.ctable <;> simp [Outcome.returned]

/-- Helper: when `set_codec` exits, it leaves `codec` alone and logs only the
`getenv` and `exit` calls. -/
theorem pzlib_set_codec_exit (env : Option String) (st : State pzlib.Backend)
    (h : (pzlib.set_codec env st).returned = false) :
    pzlib.set_codec env st = .exit 1 ⟨st.codec, st.log ++ [.getenv, .exit]⟩ := by
  rw [pzlib_set_codec_eq] at h ⊢
  cases hb : env.bind (fun v => pzlib.set_codec_loop v pzlib.ctable) with
  | none => rfl
  | some b => rw [hb] at h; simp [Outcome.returned] at h

/-- Helper: for a table name, `set_codec` stores the object of the first
entry carrying that name. -/
theorem pzlib_set_codec_found (v : String) (st : State pzlib.Backend)
    (h : v ∈ pzlib.ctable.map (·.name)) :
    ∃ e, pzlib.ctable.find? (fun e => decide (v = e.name)) = some e ∧ e.name = v ∧
      pzlib.set_codec (some v) st = .ret e.cptr ⟨.entry e.cptr, st.log ++ [.getenv]⟩ := by
  have hn : pzlib.set_codec_loop v pzlib.ctable ≠ none := fun hc => (pzlib_loop_none v _).1 hc h
  rw [pzlib_loop_find] at hn
  cases hf : pzlib.ctable.find? (fun e => decide (v = e.name)) with
  | none => rw [hf] at hn; exact absurd rfl hn
  | some e =>
    refine ⟨e, rfl, ?_, ?_⟩
    · have := List.find?_some hf
      exact (of_decide_eq_true this).symm
    · rw [pzlib_set_codec_eq]
      simp [Option.bind, pzlib_loop_find, hf]

/-- Helper: `set_codec` exits exactly when the variable is unset or is not a
table name. -/
theorem pzsnap_set_codec_exit_iff (env : Option String) (st : State pzsnap.Backend) :
    (pzsnap.set_codec env st).returned = false ↔
      (env = none ∨ ∃ v, env = some v ∧ v ∉ pzsnap.ctable.map (·.name)) := by
  rw [pzsnap_set_codec_eq]
  cases env with
  | none => simp [Outcome.returned]
  | some v =>
    simp only [Option.bind, reduceCtorEq, Option.some.injEq, exists_eq_left', false_or]
    rw [← pzsnap_loop_none]
    cases pzsnap.set_codec_loop v pzsnap.ctable <;> simp [Outcome.returned]

/-- Helper: when `set_codec` exits, it leaves `codec` alone and logs only the
`getenv` and `exit` calls. -/
theorem pzsnap_set_codec_exit (env : Option String) (st : State pzsnap.Backend)
    (h : (pzsnap.set_codec env st).returned = false) :
    pzsnap.set_codec env st = .exit 1 ⟨st.codec, st.log ++ [.getenv, .exit]⟩ := by
  rw [pzsnap_set_codec_eq] at h ⊢
  cases hb : env.bind (fun v => pzsnap.set_codec_loop v pzsnap.ctable) with
  | none => rfl
  | some b => rw [hb] at h; simp [Outcome.returned] at h

/-- Helper: for a table name, `set_codec` stores the object of the first
entry carrying that name. -/
theorem pzsnap_set_codec_found (v : String) (st : State pzsnap.Backend)
    (h : v ∈ pzsnap.ctable.map (·.name)) :
    ∃ e, pzsnap.ctable.find? (fun e => decide (v = e.name)) = some e ∧ e.name = v ∧
      pzsnap.set_codec (some v) st = .ret e.cptr ⟨.entry e.cptr, st.log ++ [.getenv]⟩ := by
  have hn : pzsnap.set_codec_loop v pzsnap.ctable ≠ none := fun hc => (pzsnap_loop_none v _).1 hc h
  rw [pzsnap_loop_find] at hn
  cases hf : pzsnap.ctable.find? (fun e => decide (v = e.name)) with
  | none => rw [hf] at hn; exact absurd rfl hn
  | some e =>
    refine ⟨e, rfl, ?_, ?_⟩
    · have := List.find?_some hf
      exact (of_decide_eq_true this).symm
    · rw [pzsnap_set_codec_eq]
      simp [Option.bind, pzsnap_loop_find, hf]

/-! ## Fatal misconfiguration -/

/-- C5: in both files `set_codec` ends the process exactly when `POLYZ` is
unset or is not (as a whole, case-sensitive string) a name of that file's
table; the first adapter call then exits having called only `getenv` and
`exit`, no backend function.  Otherwise `codec` becomes the object of the
first table entry with that name; the names of each table are pairwise
distinct, "lz4" selects `c_lz4` and "lz4hc" selects `c_lz4hc`. -/
theorem C5_fatal_misconfiguration :
    ((∀ (env : Option String) (st : State pzlib.Backend),
        (pzlib.set_codec env st).returned = false ↔
          (env = none ∨ ∃ v, env = some v ∧ v ∉ pzlib.ctable.map (·.name))) ∧
     (∀ (N : Native) (env : Option String) (st : State pzlib.Backend)
        (out inp : Ptr) (outlen inlen len : Nat) (level : Int),
        st.codec = .def_codec → (pzlib.set_codec env st).returned = false →
          pzlib.compressBound N env st len
            = .exit 1 ⟨.def_codec, st.log ++ [.getenv, .exit]⟩ ∧
          pzlib.compress2 N env st out outlen inp inlen level
            = .exit 1 ⟨.def_codec, st.log ++ [.getenv, .exit]⟩ ∧
          pzlib.uncompress N env st out outlen inp inlen
            = .exit 1 ⟨.def_codec, st.log ++ [.getenv, .exit]⟩) ∧
     (∀ (v : String) (st : State pzlib.Backend), v ∈ pzlib.ctable.map (·.name) →
        ∃ e, pzlib.ctable.find? (fun e => decide (v = e.name)) = some e ∧ e.name = v ∧
          pzlib.set_codec (some v) st = .ret e.cptr ⟨.entry e.cptr, st.log ++ [.getenv]⟩) ∧
     (pzlib.ctable.map (·.name)).Nodup ∧
     (∀ st : State pzlib.Backend,
        (pzlib.set_codec (some "lz4") st).state.codec = .entry .c_lz4 ∧
        (pzlib.set_codec (some "lz4hc") st).state.codec = .entry .c_lz4hc)) ∧
    ((∀ (env : Option String) (st : State pzsnap.Backend),
        (pzsnap.set_codec env st).returned = false ↔
          (env = none ∨ ∃ v, env = some v ∧ v ∉ pzsnap.ctable.map (·.name))) ∧
     (∀ (N : Native) (env : Option String) (st : State pzsnap.Backend)
        (out inp : Ptr) (outlen inlen len : Nat),
        st.codec = .def_codec → (pzsnap.set_codec env st).returned = false →
          pzsnap.MaxCompressedLength N env st len
            = .exit 1 ⟨.def_codec, st.log ++ [.getenv, .exit]⟩ ∧
          pzsnap.RawCompress N env st inp inlen out outlen
            = .exit 1 ⟨.def_codec, st.log ++ [.getenv, .exit]⟩ ∧
          pzsnap.RawUncompress N env st inp inlen out
            = .exit 1 ⟨.def_codec, st.log ++ [.getenv, .exit]⟩) ∧
     (∀ (v : String) (st : State pzsnap.Backend), v ∈ pzsnap.ctable.map (·.name) →
        ∃ e, pzsnap.ctable.find? (fun e => decide (v = e.name)) = some e ∧ e.name = v ∧
          pzsnap.set_codec (some v) st = .ret e.cptr ⟨.entry e.cptr, st.log ++ [.getenv]⟩) ∧
     (pzsnap.ctable.map (·.name)).Nodup ∧
     (∀ st : State pzsnap.Backend,
        (pzsnap.set_codec (some "lz4") st).state.codec = .entry .c_lz4 ∧
        (pzsnap.set_codec (some "lz4hc") st).state.codec = .entry .c_lz4hc)) := by
  refine ⟨⟨pzlib_set_codec_exit_iff, ?_, pzlib_set_codec_found, by decide, ?_⟩,
          ⟨pzsnap_set_codec_exit_iff, ?_, pzsnap_set_codec_found, by decide, ?_⟩⟩
  · intro N env st out inp outlen inlen len level hc hx
    have hs := pzlib_set_codec_exit env st hx
    simp [pzlib.compressBound, pzlib.compress2, pzlib.uncompress, pzlib.codec_bound,
      pzlib.codec_comp, pzlib.codec_uncomp, pzlib.def_bfunc, pzlib.def_cfunc, pzlib.def_ufunc,
      hc, hs, Outcome.bind]
  · intro st
    simp [pzlib_set_codec_eq, Option.bind, pzlib.set_codec_loop, pzlib.ctable, Outcome.state]
  · intro N env st out inp outlen inlen len hc hx
    have hs := pzsnap_set_codec_exit env st hx
    simp [pzsnap.MaxCompressedLength, pzsnap.RawCompress, pzsnap.RawUncompress,
      pzsnap.codec_bound, pzsnap.codec_comp, pzsnap.codec_uncomp, pzsnap.def_bfunc,
      pzsnap.def_cfunc, pzsnap.def_ufunc, hc, hs, Outcome.bind]
  · intro st
    simp [pzsnap_set_codec_eq, Option.bind, pzsnap.set_codec_loop, pzsnap.ctable, Outcome.state]

/-- C5 witness: with `POLYZ=LZ4` (upper case) the first `compressBound` call
of a fresh process exits without a backend call, and with `POLYZ=lzma` the
selector of `pzsnap.cc` stores an entry named "lzma". -/
theorem C5_fatal_misconfiguration_witness :
    (pzlib.compressBound storeNative (some "LZ4") (State.init pzlib.Backend) 5
        = .exit 1 ⟨.def_codec, [.getenv, .exit]⟩) ∧
    (∃ e, pzsnap.ctable.find? (fun e => decide ("lzma" = e.name)) = some e ∧ e.name = "lzma" ∧
        pzsnap.set_codec (some "lzma") (State.init pzsnap.Backend)
          = .ret e.cptr ⟨.entry e.cptr, [.getenv]⟩) :=
  ⟨(C5_fatal_misconfiguration.1.2.1 storeNative (some "LZ4") (State.init pzlib.Backend)
      ⟨[], 0⟩ ⟨[], 0⟩ 0 0 5 0 rfl (by decide)).1,
   C5_fatal_misconfiguration.2.2.2.1 "lzma" (State.init pzsnap.Backend) (by decide)⟩

/-- Helper: backend calls are not `getenv` calls. -/
theorem count_getenv_backend {β : Type} [DecidableEq β] (b : β) (l : List (Event β))
    (h : ∀ ev ∈ l, ev.backend? = some b) : l.count .getenv = 0 := by
  rw [List.count_eq_zero]
  intro hm
  have := h _ hm
  simp [Event.backend?] at this

/-! ## Selection happens once (`pzlib`) -/

/-- Helper: with a resolved `codec`, a call returns, keeps `codec`, logs one
call of that backend, and does not depend on `POLYZ`. -/
theorem pzlib_step_resolved (N : Native) (b : pzlib.Backend) (env : Option String)
    (st : State pzlib.Backend) (c : pzlib.Call) (h : st.codec = .entry b) :
    ∃ r ev, pzlib.step N env st c = .ret r ⟨.entry b, st.log ++ [ev]⟩ ∧
      ev.backend? = some b ∧ ∀ env', pzlib.step N env' st c = pzlib.step N env st c := by
  cases c <;>
  · simp only [pzlib.step, pzlib.compressBound, pzlib.compress2, pzlib.uncompress, pzlib.codec_bound, pzlib.codec_comp, pzlib.codec_uncomp, h,
      Outcome.bind, State.logged]
    exact ⟨_, _, rfl, rfl, fun _ => trivial⟩

/-- Helper: with a resolved `codec`, every sequence of calls runs to its end
on that same backend, whatever values `POLYZ` takes meanwhile. -/
theorem pzlib_run_resolved (N : Native) (b : pzlib.Backend)
    (calls : List (Option String × pzlib.Call)) :
    ∀ st : State pzlib.Backend, st.codec = .entry b →
      ∃ rs l, pzlib.run N calls st = .ret rs ⟨.entry b, st.log ++ l⟩ ∧
        (∀ ev ∈ l, ev.backend? = some b) ∧
        ∀ calls' : List (Option String × pzlib.Call),
          calls'.map (·.2) = calls.map (·.2) → pzlib.run N calls' st = pzlib.run N calls st := by
  induction calls with
  | nil =>
    intro st h
    refine ⟨[], [], ?_, by simp, ?_⟩
    · cases st; simp_all [pzlib.run]
    · intro calls' hc
      have : calls' = [] := by simpa using hc
      rw [this]
  | cons ec rest ih =>
    intro st h
    obtain ⟨env, c⟩ := ec
    obtain ⟨r, ev, hstep, hev, hind⟩ := pzlib_step_resolved N b env st c h
    obtain ⟨rs, l, hrun, hl, hruni⟩ := ih ⟨.entry b, st.log ++ [ev]⟩ rfl
    refine ⟨r :: rs, ev :: l, ?_, ?_, ?_⟩
    · simp [pzlib.run, hstep, hrun, Outcome.bind]
    · intro e he
      rcases List.mem_cons.1 he with rfl | he
      · exact hev
      · exact hl e he
    · intro calls' hc
      match calls', hc with
      | [], hc => simp at hc
      | (env', c') :: rest', hc =>
        simp only [List.map_cons, List.cons.injEq] at hc
        obtain ⟨hc1, hc2⟩ := hc
        subst hc1
        simp only [pzlib.run, hind env', hstep, Outcome.bind, hruni rest' hc2]

/-- Helper: the first call of a fresh process calls `getenv` once; if it
returns, `codec` is the first table entry named by the value read. -/
theorem pzlib_first_step (N : Native) (env : Option String) (c : pzlib.Call) :
    (pzlib.step N env (State.init pzlib.Backend) c).state.log.count .getenv = 1 ∧
    ∀ r st1, pzlib.step N env (State.init pzlib.Backend) c = .ret r st1 →
      ∃ v e ev, env = some v ∧ pzlib.ctable.find? (fun e => decide (v = e.name)) = some e ∧
        e.name = v ∧ st1 = ⟨.entry e.cptr, [.getenv, ev]⟩ ∧ ev.backend? = some e.cptr := by
  cases env with
  | none =>
    constructor
    · cases c <;>
        simp [pzlib.step, pzlib.compressBound, pzlib.compress2, pzlib.uncompress, pzlib.codec_bound, pzlib.codec_comp, pzlib.codec_uncomp,
          pzlib.def_bfunc, pzlib.def_cfunc, pzlib.def_ufunc, pzlib_set_codec_eq, State.init,
          Outcome.bind, Outcome.state, State.logged]
    · intro r st1 h
      cases c <;>
        simp [pzlib.step, pzlib.compressBound, pzlib.compress2, pzlib.uncompress, pzlib.codec_bound, pzlib.codec_comp, pzlib.codec_uncomp,
          pzlib.def_bfunc, pzlib.def_cfunc, pzlib.def_ufunc, pzlib_set_codec_eq, State.init,
          Outcome.bind] at h
  | some v =>
    by_cases hv : v ∈ pzlib.ctable.map (·.name)
    · obtain ⟨e, hf, hn, hs⟩ := pzlib_set_codec_found v (State.init pzlib.Backend) hv
      simp only [State.init, List.nil_append] at hs
      constructor
      · cases c <;>
          simp [pzlib.step, pzlib.compressBound, pzlib.compress2, pzlib.uncompress, pzlib.codec_bound, pzlib.codec_comp, pzlib.codec_uncomp,
            pzlib.def_bfunc, pzlib.def_cfunc, pzlib.def_ufunc, hs, State.init,
            Outcome.bind, Outcome.state, State.logged]
      · intro r st1 h
        cases c <;>
        · simp only [pzlib.step, pzlib.compressBound, pzlib.compress2, pzlib.uncompress, pzlib.codec_bound, pzlib.codec_comp,
            pzlib.codec_uncomp, pzlib.def_bfunc, pzlib.def_cfunc, pzlib.def_ufunc, hs, State.init,
            Outcome.bind, State.logged, List.nil_append, Outcome.ret.injEq] at h
          exact ⟨v, e, _, rfl, hf, hn, h.2.symm, rfl⟩
    · have hx : (pzlib.set_codec (some v) (State.init pzlib.Backend)).returned = false :=
        (pzlib_set_codec_exit_iff _ _).2 (Or.inr ⟨v, rfl, hv⟩)
      have hs := pzlib_set_codec_exit _ _ hx
      simp only [State.init, List.nil_append] at hs
      constructor
      · cases c <;>
          simp [pzlib.step, pzlib.compressBound, pzlib.compress2, pzlib.uncompress, pzlib.codec_bound, pzlib.codec_comp, pzlib.codec_uncomp,
            pzlib.def_bfunc, pzlib.def_cfunc, pzlib.def_ufunc, hs, State.init,
            Outcome.bind, Outcome.state, State.logged]
      · intro r st1 h
        cases c <;>
          simp [pzlib.step, pzlib.compressBound, pzlib.compress2, pzlib.uncompress, pzlib.codec_bound, pzlib.codec_comp, pzlib.codec_uncomp,
            pzlib.def_bfunc, pzlib.def_cfunc, pzlib.def_ufunc, hs, State.init,
            Outcome.bind] at h

/-! ## Selection happens once (`pzsnap`) -/

/-- Helper: with a resolved `codec`, a call returns, keeps `codec`, logs one
call of that backend, and does not depend on `POLYZ`. -/
theorem pzsnap_step_resolved (N : Native) (b : pzsnap.Backend) (env : Option String)
    (st : State pzsnap.Backend) (c : pzsnap.Call) (h : st.codec = .entry b) :
    ∃ r ev, pzsnap.step N env st c = .ret r ⟨.entry b, st.log ++ [ev]⟩ ∧
      ev.backend? = some b ∧ ∀ env', pzsnap.step N env' st c = pzsnap.step N env st c := by
  cases c <;>
  · simp only [pzsnap.step, pzsnap.MaxCompressedLength, pzsnap.RawCompress, pzsnap.RawUncompress, pzsnap.codec_bound, pzsnap.codec_comp, pzsnap.codec_uncomp, h,
      Outcome.bind, State.logged]
    exact ⟨_, _, rfl, rfl, fun _ => trivial⟩

/-- Helper: with a resolved `codec`, every sequence of calls runs to its end
on that same backend, whatever values `POLYZ` takes meanwhile. -/
theorem pzsnap_run_resolved (N : Native) (b : pzsnap.Backend)
    (calls : List (Option String × pzsnap.Call)) :
    ∀ st : State pzsnap.Backend, st.codec = .entry b →
      ∃ rs l, pzsnap.run N calls st = .ret rs ⟨.entry b, st.log ++ l⟩ ∧
        (∀ ev ∈ l, ev.backend? = some b) ∧
        ∀ calls' : List (Option String × pzsnap.Call),
          calls'.map (·.2) = calls.map (·.2) → pzsnap.run N calls' st = pzsnap.run N calls st := by
  induction calls with
  | nil =>
    intro st h
    refine ⟨[], [], ?_, by simp, ?_⟩
    · cases st; simp_all [pzsnap.run]
    · intro calls' hc
      have : calls' = [] := by simpa using hc
      rw [this]
  | cons ec rest ih =>
    intro st h
    obtain ⟨env, c⟩ := ec
    obtain ⟨r, ev, hstep, hev, hind⟩ := pzsnap_step_resolved N b env st c h
    obtain ⟨rs, l, hrun, hl, hruni⟩ := ih ⟨.entry b, st.log ++ [ev]⟩ rfl
    refine ⟨r :: rs, ev :: l, ?_, ?_, ?_⟩
    · simp [pzsnap.run, hstep, hrun, Outcome.bind]
    · intro e he
      rcases List.mem_cons.1 he with rfl | he
      · exact hev
      · exact hl e he
    · intro calls' hc
      match calls', hc with
      | [], hc => simp at hc
      | (env', c') :: rest', hc =>
        simp only [List.map_cons, List.cons.injEq] at hc
        obtain ⟨hc1, hc2⟩ := hc
        subst hc1
        simp only [pzsnap.run, hind env', hstep, Outcome.bind, hruni rest' hc2]

/-- Helper: the first call of a fresh process calls `getenv` once; if it
returns, `codec` is the first table entry named by the value read. -/
theorem pzsnap_first_step (N : Native) (env : Option String) (c : pzsnap.Call) :
    (pzsnap.step N env (State.init pzsnap.Backend) c).state.log.count .getenv = 1 ∧
    ∀ r st1, pzsnap.step N env (State.init pzsnap.Backend) c = .ret r st1 →
      ∃ v e ev, env = some v ∧ pzsnap.ctable.find? (fun e => decide (v = e.name)) = some e ∧
        e.name = v ∧ st1 = ⟨.entry e.cptr, [.getenv, ev]⟩ ∧ ev.backend? = some e.cptr := by
  cases env with
  | none =>
    constructor
    · cases c <;>
        simp [pzsnap.step, pzsnap.MaxCompressedLength, pzsnap.RawCompress, pzsnap.RawUncompress, pzsnap.codec_bound, pzsnap.codec_comp, pzsnap.codec_uncomp,
          pzsnap.def_bfunc, pzsnap.def_cfunc, pzsnap.def_ufunc, pzsnap_set_codec_eq, State.init,
          Outcome.bind, Outcome.state, State.logged]
    · intro r st1 h
      cases c <;>
        simp [pzsnap.step, pzsnap.MaxCompressedLength, pzsnap.RawCompress, pzsnap.RawUncompress, pzsnap.codec_bound, pzsnap.codec_comp, pzsnap.codec_uncomp,
          pzsnap.def_bfunc, pzsnap.def_cfunc, pzsnap.def_ufunc, pzsnap_set_codec_eq, State.init,
          Outcome.bind] at h
  | some v =>
    by_cases hv : v ∈ pzsnap.ctable.map (·.name)
    · obtain ⟨e, hf, hn, hs⟩ := pzsnap_set_codec_found v (State.init pzsnap.Backend) hv
      simp only [State.init, List.nil_append] at hs
      constructor
      · cases c <;>
          simp [pzsnap.step, pzsnap.MaxCompressedLength, pzsnap.RawCompress, pzsnap.RawUncompress, pzsnap.codec_bound, pzsnap.codec_comp, pzsnap.codec_uncomp,
            pzsnap.def_bfunc, pzsnap.def_cfunc, pzsnap.def_ufunc, hs, State.init,
            Outcome.bind, Outcome.state, State.logged]
      · intro r st1 h
        cases c <;>
        · simp only [pzsnap.step, pzsnap.MaxCompressedLength, pzsnap.RawCompress, pzsnap.RawUncompress, pzsnap.codec_bound, pzsnap.codec_comp,
            pzsnap.codec_uncomp, pzsnap.def_bfunc, pzsnap.def_cfunc, pzsnap.def_ufunc, hs, State.init,
            Outcome.bind, State.logged, List.nil_append, Outcome.ret.injEq] at h
          exact ⟨v, e, _, rfl, hf, hn, h.2.symm, rfl⟩
    · have hx : (pzsnap.set_codec (some v) (State.init pzsnap.Backend)).returned = false :=
        (pzsnap_set_codec_exit_iff _ _).2 (Or.inr ⟨v, rfl, hv⟩)
      have hs := pzsnap_set_codec_exit _ _ hx
      simp only [State.init, List.nil_append] at hs
      constructor
      · cases c <;>
          simp [pzsnap.step, pzsnap.MaxCompressedLength, pzsnap.RawCompress, pzsnap.RawUncompress, pzsnap.codec_bound, pzsnap.codec_comp, pzsnap.codec_uncomp,
            pzsnap.def_bfunc, pzsnap.def_cfunc, pzsnap.def_ufunc, hs, State.init,
            Outcome.bind, Outcome.state, State.logged]
      · intro r st1 h
        cases c <;>
          simp [pzsnap.step, pzsnap.MaxCompressedLength, pzsnap.RawCompress, pzsnap.RawUncompress, pzsnap.codec_bound, pzsnap.codec_comp, pzsnap.codec_uncomp,
            pzsnap.def_bfunc, pzsnap.def_cfunc, pzsnap.def_ufunc, hs, State.init,
            Outcome.bind] at h

/-- Helper: the statement of first-call-wins for `pzlib`. -/
theorem pzlib_first_call_wins (N : Native) (env0 : Option String) (c0 : pzlib.Call)
    (calls : List (Option String × pzlib.Call)) :
    (pzlib.step N env0 (State.init pzlib.Backend) c0).state.log.count .getenv = 1 ∧
    ∀ r0 st1, pzlib.step N env0 (State.init pzlib.Backend) c0 = .ret r0 st1 →
      ∃ v e, env0 = some v ∧
        pzlib.ctable.find? (fun e => decide (v = e.name)) = some e ∧ e.name = v ∧
        st1.codec = .entry e.cptr ∧
        ∃ rs st2, pzlib.run N calls st1 = .ret rs st2 ∧ st2.codec = .entry e.cptr ∧
          st2.log.count .getenv = 1 ∧
          (∀ ev ∈ st2.log, ev = .getenv ∨ ev.backend? = some e.cptr) ∧
          ∀ calls' : List (Option String × pzlib.Call),
            calls'.map (·.2) = calls.map (·.2) → pzlib.run N calls' st1 = .ret rs st2 := by
  obtain ⟨hcount, hret⟩ := pzlib_first_step N env0 c0
  refine ⟨hcount, ?_⟩
  intro r0 st1 h
  obtain ⟨v, e, ev, hv, hf, hn, hst, hev⟩ := hret r0 st1 h
  subst hst
  obtain ⟨rs, l, hrun, hl, hind⟩ := pzlib_run_resolved N e.cptr calls ⟨.entry e.cptr, [.getenv, ev]⟩ rfl
  refine ⟨v, e, hv, hf, hn, rfl, rs, _, hrun, rfl, ?_, ?_, ?_⟩
  · have h0 := count_getenv_backend e.cptr l hl
    have h1 := count_getenv_backend e.cptr [ev] (by simpa using hev)
    simp only [List.count_append, h0]
    rw [show ([Event.getenv, ev] : List (Event pzlib.Backend)) = [Event.getenv] ++ [ev] from rfl,
      List.count_append, h1]
    simp
  · intro ev' hm
    simp only [List.mem_append, List.mem_cons, List.mem_singleton, List.not_mem_nil,
      or_false] at hm
    rcases hm with (rfl | rfl) | hm
    · exact Or.inl rfl
    · exact Or.inr hev
    · exact Or.inr (hl _ hm)
  · intro calls' hc
    rw [hind calls' hc, hrun]

/-- Helper: the statement of first-call-wins for `pzsnap`. -/
theorem pzsnap_first_call_wins (N : Native) (env0 : Option String) (c0 : pzsnap.Call)
    (calls : List (Option String × pzsnap.Call)) :
    (pzsnap.step N env0 (State.init pzsnap.Backend) c0).state.log.count .getenv = 1 ∧
    ∀ r0 st1, pzsnap.step N env0 (State.init pzsnap.Backend) c0 = .ret r0 st1 →
      ∃ v e, env0 = some v ∧
        pzsnap.ctable.find? (fun e => decide (v = e.name)) = some e ∧ e.name = v ∧
        st1.codec = .entry e.cptr ∧
        ∃ rs st2, pzsnap.run N calls st1 = .ret rs st2 ∧ st2.codec = .entry e.cptr ∧
          st2.log.count .getenv = 1 ∧
          (∀ ev ∈ st2.log, ev = .getenv ∨ ev.backend? = some e.cptr) ∧
          ∀ calls' : List (Option String × pzsnap.Call),
            calls'.map (·.2) = calls.map (·.2) → pzsnap.run N calls' st1 = .ret rs st2 := by
  obtain ⟨hcount, hret⟩ := pzsnap_first_step N env0 c0
  refine ⟨hcount, ?_⟩
  intro r0 st1 h
  obtain ⟨v, e, ev, hv, hf, hn, hst, hev⟩ := hret r0 st1 h
  subst hst
  obtain ⟨rs, l, hrun, hl, hind⟩ := pzsnap_run_resolved N e.cptr calls ⟨.entry e.cptr, [.getenv, ev]⟩ rfl
  refine ⟨v, e, hv, hf, hn, rfl, rs, _, hrun, rfl, ?_, ?_, ?_⟩
  · have h0 := count_getenv_backend e.cptr l hl
    have h1 := count_getenv_backend e.cptr [ev] (by simpa using hev)
    simp only [List.count_append, h0]
    rw [show ([Event.getenv, ev] : List (Event pzsnap.Backend)) = [Event.getenv] ++ [ev] from rfl,
      List.count_append, h1]
    simp
  · intro ev' hm
    simp only [List.mem_append, List.mem_cons, List.mem_singleton, List.not_mem_nil,
      or_false] at hm
    rcases hm with (rfl | rfl) | hm
    · exact Or.inl rfl
    · exact Or.inr hev
    · exact Or.inr (hl _ hm)
  · intro calls' hc
    rw [hind calls' hc, hrun]

/-! ## First call wins -/

/-- C4: a process starts with `codec` at the resolving stub.  In both files,
for every first adapter call, every later sequence of adapter calls and every
sequence of values `POLYZ` takes: `getenv` (the first action of `set_codec`)
is called exactly once, inside the first call; if that call returns, `codec`
is the first table entry whose name is the value read then, it is still that
entry after any number of later calls, all of which return, every logged
backend call is a call of that entry, and the run is the same for every other
sequence of `POLYZ` values. -/
theorem C4_first_call_wins :
    (∀ (N : Native) (env0 : Option String) (c0 : pzlib.Call)
       (calls : List (Option String × pzlib.Call)),
      (pzlib.step N env0 (State.init pzlib.Backend) c0).state.log.count .getenv = 1 ∧
      ∀ r0 st1, pzlib.step N env0 (State.init pzlib.Backend) c0 = .ret r0 st1 →
        ∃ v e, env0 = some v ∧
          pzlib.ctable.find? (fun e => decide (v = e.name)) = some e ∧ e.name = v ∧
          st1.codec = .entry e.cptr ∧
          ∃ rs st2, pzlib.run N calls st1 = .ret rs st2 ∧ st2.codec = .entry e.cptr ∧
            st2.log.count .getenv = 1 ∧
            (∀ ev ∈ st2.log, ev = .getenv ∨ ev.backend? = some e.cptr) ∧
            ∀ calls' : List (Option String × pzlib.Call),
              calls'.map (·.2) = calls.map (·.2) → pzlib.run N calls' st1 = .ret rs st2) ∧
    (∀ (N : Native) (env0 : Option String) (c0 : pzsnap.Call)
       (calls : List (Option String × pzsnap.Call)),
      (pzsnap.step N env0 (State.init pzsnap.Backend) c0).state.log.count .getenv = 1 ∧
      ∀ r0 st1, pzsnap.step N env0 (State.init pzsnap.Backend) c0 = .ret r0 st1 →
        ∃ v e, env0 = some v ∧
          pzsnap.ctable.find? (fun e => decide (v = e.name)) = some e ∧ e.name = v ∧
          st1.codec = .entry e.cptr ∧
          ∃ rs st2, pzsnap.run N calls st1 = .ret rs st2 ∧ st2.codec = .entry e.cptr ∧
            st2.log.count .getenv = 1 ∧
            (∀ ev ∈ st2.log, ev = .getenv ∨ ev.backend? = some e.cptr) ∧
            ∀ calls' : List (Option String × pzsnap.Call),
              calls'.map (·.2) = calls.map (·.2) → pzsnap.run N calls' st1 = .ret rs st2) :=
  ⟨pzlib_first_call_wins, pzsnap_first_call_wins⟩

/-- C4 witness: a fresh `pzlib.c` process whose first call is
`compressBound(3)` under `POLYZ=lzma`, followed by `compressBound(1)` with
`POLYZ` unset and `compressBound(2)` under `POLYZ=bzip2`. -/
theorem C4_first_call_wins_witness :
    ∃ v e, some "lzma" = some v ∧
      pzlib.ctable.find? (fun e => decide (v = e.name)) = some e ∧ e.name = v ∧
      (State.mk (.entry .c_lzma) [.getenv, .bound .c_lzma 3] : State pzlib.Backend).codec
        = .entry e.cptr ∧
      ∃ rs st2,
        pzlib.run storeNative [(none, .compressBound 1), (some "bzip2", .compressBound 2)]
          ⟨.entry .c_lzma, [.getenv, .bound .c_lzma 3]⟩ = .ret rs st2 ∧
        st2.codec = .entry e.cptr ∧ st2.log.count .getenv = 1 ∧
        (∀ ev ∈ st2.log, ev = .getenv ∨ ev.backend? = some e.cptr) ∧
        ∀ calls' : List (Option String × pzlib.Call),
          calls'.map (·.2)
              = [(none, pzlib.Call.compressBound 1), (some "bzip2", .compressBound 2)].map (·.2) →
            pzlib.run storeNative calls' ⟨.entry .c_lzma, [.getenv, .bound .c_lzma 3]⟩
              = .ret rs st2 :=
  (C4_first_call_wins.1 storeNative (some "lzma") (.compressBound 3)
    [(none, .compressBound 1), (some "bzip2", .compressBound 2)]).2
    (.size 4) ⟨.entry .c_lzma, [.getenv, .bound .c_lzma 3]⟩ (by decide)

/-! ## Length and capacity arithmetic of the adapters -/

/-- C7 (as stated, refuted): the claim has every adapter operation report an
error for a too-short frame or capacity.  With the verbatim-copy libraries,
`uncompress` called with `inlen = 0` delegates with length `2^64 - 1` and
returns `Z_OK`; `compress2` called with `*outlen = 0` hands the backend the
capacity `2^64 - 1` and returns `Z_OK`; `snappy::RawCompress` with
`*outlen = 0` and `snappy::RawUncompress` with `inlen = 0` hand over
`2^64 - 8`. -/
theorem C7_no_underflow_guard :
    pzlib.uncompress storeNative none ⟨.entry .c_lzma, []⟩ ⟨[0, 0, 0], 0⟩ 3 ⟨[8, 1, 2, 3], 0⟩ 0
      = .ret ⟨Z_OK, [1, 2, 3], 3⟩
          ⟨.entry .c_lzma, [.uncomp .c_lzma 18446744073709551615]⟩ ∧
    pzlib.compress2 storeNative none ⟨.entry .c_lzma, []⟩ ⟨[0, 0, 0, 0], 0⟩ 0 ⟨[1, 2, 3], 0⟩ 3 0
      = .ret ⟨Z_OK, [8, 1, 2, 3], 4⟩
          ⟨.entry .c_lzma, [.comp .c_lzma 18446744073709551615 3]⟩ ∧
    (pzsnap.RawCompress storeNative none ⟨.entry .c_zlib, []⟩ ⟨[1, 2, 3], 0⟩ 3
        ⟨[0, 0, 0, 0, 0, 0, 0, 0, 0, 0, 0], 0⟩ 0).state.log
      = [.comp .c_zlib 18446744073709551608 3] ∧
    (pzsnap.RawUncompress storeNative none ⟨.entry .c_zlib, []⟩
        ⟨[3, 0, 0, 0, 0, 0, 0, 0, 1, 2, 3], 0⟩ 0 ⟨[0, 0, 0], 0⟩).state.log
      = [.uncomp .c_zlib 18446744073709551608] := by
  refine ⟨by decide, by decide, by decide, by decide⟩

/-- C7 (amended): no adapter operation tests its length or capacity before
subtracting.  With a resolved backend, `uncompress` returns what the
backend's `uncomp` returns on `in + 1` and `(inlen - 1) mod 2^64`;
`compress2` what `comp` returns on `out + 1` and capacity
`(*outlen - 1) mod 2^64`, with 1 added back to the length mod `2^64`;
`snappy::RawCompress` and `snappy::RawUncompress` do the same with
`sizeof(size_t)`.  The value handed over is the plain difference exactly
when the argument is at least 1 (at least `sizeof(size_t)`); below that it
is the wrapped value. -/
theorem C7_unguarded_subtraction (N : Native) (env : Option String) :
    (∀ (b : pzlib.Backend) (st : State pzlib.Backend) (out inp : Ptr) (outlen inlen : Nat),
      st.codec = .entry b →
      pzlib.uncompress N env st out outlen inp inlen
        = .ret ((pzlib.deref N b).uncomp out outlen (inp.add 1) (wsub inlen 1))
            (st.logged (.uncomp b (wsub inlen 1)))) ∧
    (∀ (b : pzlib.Backend) (st : State pzlib.Backend) (out inp : Ptr) (outlen inlen : Nat)
       (level : Int), st.codec = .entry b →
      pzlib.compress2 N env st out outlen inp inlen level
        = .ret ⟨((pzlib.deref N b).comp ⟨out.write [8], out.off + 1⟩ (wsub outlen 1)
                  inp inlen level).rc,
                ((pzlib.deref N b).comp ⟨out.write [8], out.off + 1⟩ (wsub outlen 1)
                  inp inlen level).mem,
                wadd ((pzlib.deref N b).comp ⟨out.write [8], out.off + 1⟩ (wsub outlen 1)
                  inp inlen level).len 1⟩
            (st.logged (.comp b (wsub outlen 1) inlen))) ∧
    (∀ (b : pzsnap.Backend) (st : State pzsnap.Backend) (out inp : Ptr) (outlen inlen : Nat),
      st.codec = .entry b →
      pzsnap.RawCompress N env st inp inlen out outlen
        = .ret (((pzsnap.deref N b).comp inp inlen
                  ⟨out.write (sizeBytes SIZEOF_SIZE_T inlen), out.off + SIZEOF_SIZE_T⟩
                  (wsub outlen SIZEOF_SIZE_T)).1,
                wadd ((pzsnap.deref N b).comp inp inlen
                  ⟨out.write (sizeBytes SIZEOF_SIZE_T inlen), out.off + SIZEOF_SIZE_T⟩
                  (wsub outlen SIZEOF_SIZE_T)).2 SIZEOF_SIZE_T)
            (st.logged (.comp b (wsub outlen SIZEOF_SIZE_T) inlen))) ∧
    (∀ (b : pzsnap.Backend) (st : State pzsnap.Backend) (out inp : Ptr) (inlen : Nat),
      st.codec = .entry b →
      pzsnap.RawUncompress N env st inp inlen out
        = .ret ((pzsnap.deref N b).uncomp (inp.add SIZEOF_SIZE_T) (wsub inlen SIZEOF_SIZE_T) out)
            (st.logged (.uncomp b (wsub inlen SIZEOF_SIZE_T)))) ∧
    (∀ n : Nat, n < WORD → wsub n 1 = if 1 ≤ n then n - 1 else WORD - 1) ∧
    (∀ n : Nat, n < WORD →
      wsub n SIZEOF_SIZE_T = if SIZEOF_SIZE_T ≤ n then n - SIZEOF_SIZE_T
                             else WORD - SIZEOF_SIZE_T + n) := by
  refine ⟨?_, ?_, ?_, ?_, ?_, ?_⟩
  · intro b st out inp outlen inlen h
    simp [pzlib.uncompress, pzlib.codec_uncomp, h]
  · intro b st out inp outlen inlen level h
    simp [pzlib.compress2, pzlib.codec_comp, h, Outcome.bind, Ptr.add]
  · intro b st out inp outlen inlen h
    simp [pzsnap.RawCompress, pzsnap.codec_comp, h, Outcome.bind, Ptr.add]
  · intro b st out inp inlen h
    simp [pzsnap.RawUncompress, pzsnap.codec_uncomp, h]
  · intro n hn
    unfold wsub WORD at *
    split_ifs <;> omega
  · intro n hn
    unfold wsub WORD SIZEOF_SIZE_T at *
    split_ifs <;> omega

/-- C7 witness: `uncompress` on an empty frame with the lzma backend
resolved, and the two wrapped values. -/
theorem C7_unguarded_subtraction_witness :
    pzlib.uncompress storeNative none ⟨.entry .c_lzma, []⟩ ⟨[], 0⟩ 0 ⟨[], 0⟩ 0
      = .ret ((pzlib.deref storeNative .c_lzma).uncomp ⟨[], 0⟩ 0 (Ptr.add ⟨[], 0⟩ 1) (wsub 0 1))
          (State.logged ⟨.entry .c_lzma, []⟩ (.uncomp .c_lzma (wsub 0 1))) ∧
    wsub 0 1 = (if 1 ≤ 0 then 0 - 1 else WORD - 1) ∧
    wsub 5 SIZEOF_SIZE_T = (if SIZEOF_SIZE_T ≤ 5 then 5 - SIZEOF_SIZE_T
                            else WORD - SIZEOF_SIZE_T + 5) :=
  ⟨(C7_unguarded_subtraction storeNative none).1 .c_lzma ⟨.entry .c_lzma, []⟩ ⟨[], 0⟩ ⟨[], 0⟩
      0 0 rfl,
   (C7_unguarded_subtraction storeNative none).2.2.2.2.1 0 (by decide),
   (C7_unguarded_subtraction storeNative none).2.2.2.2.2 5 (by decide)⟩

/-! ## Decoder failures in the length-prefixed adapter -/

/-- C8 (the code at the failing inputs): `lz4_ufunc` of `pzsnap.cc` returns
true for every library, input and output, because it tests an unsigned
value for `>= 0`; `snappy_uncompress` returns status 0 whenever it returns,
and `snappy_uncompressed_length` always returns status 0.  On the frame with
length prefix 0 and payload `1 2 3` the lz4 decoder reports -1 and yet
`snappy::RawUncompress` returns true; with the bzip2 backend it returns false
on that frame and `snappy_uncompress` still returns 0; on a 3-byte frame
`snappy::GetUncompressedLength` returns false and
`snappy_uncompressed_length` returns 0. -/
theorem C8_errors_swallowed :
    (∀ (N : Native) (inp : Ptr) (inlen : Nat) (out : Ptr),
      (pzsnap.lz4_ufunc N inp inlen out).1 = true) ∧
    (∀ (N : Native) (env : Option String) (st : State pzsnap.Backend) (inp : Ptr) (inlen : Nat)
       (out : Ptr) (outlen : Nat),
      match pzsnap.snappy_uncompress N env st inp inlen out outlen with
      | .ret r _ => r.rc = 0
      | .exit _ _ => True) ∧
    (∀ (inp : Ptr) (inlen outlen : Nat),
      (pzsnap.snappy_uncompressed_length inp inlen outlen).1 = 0) ∧
    (storeNative.LZ4_decompress_safe ⟨[0, 0, 0, 0, 0, 0, 0, 0, 1, 2, 3], 8⟩ ⟨[0, 0, 0], 0⟩ 3 0).1
      = -1 ∧
    pzsnap.RawUncompress storeNative none ⟨.entry .c_lz4, []⟩
        ⟨[0, 0, 0, 0, 0, 0, 0, 0, 1, 2, 3], 0⟩ 11 ⟨[0, 0, 0], 0⟩
      = .ret (true, [0, 0, 0]) ⟨.entry .c_lz4, [.uncomp .c_lz4 3]⟩ ∧
    pzsnap.RawUncompress storeNative none ⟨.entry .c_bzip2, []⟩
        ⟨[0, 0, 0, 0, 0, 0, 0, 0, 1, 2, 3], 0⟩ 11 ⟨[0, 0, 0], 0⟩
      = .ret (false, [0, 0, 0]) ⟨.entry .c_bzip2, [.uncomp .c_bzip2 3]⟩ ∧
    pzsnap.snappy_uncompress storeNative none ⟨.entry .c_bzip2, []⟩
        ⟨[0, 0, 0, 0, 0, 0, 0, 0, 1, 2, 3], 0⟩ 11 ⟨[0, 0, 0], 0⟩ 3
      = .ret ⟨0, [0, 0, 0], 3⟩ ⟨.entry .c_bzip2, [.uncomp .c_bzip2 3]⟩ ∧
    pzsnap.GetUncompressedLength ⟨[1, 2, 3], 0⟩ 3 7 = (false, 7) ∧
    pzsnap.snappy_uncompressed_length ⟨[1, 2, 3], 0⟩ 3 7 = (0, 7) := by
  refine ⟨?_, ?_, ?_, by decide, by decide, by decide, by decide, by decide, by decide⟩
  · intro N inp inlen out
    simp [pzsnap.lz4_ufunc]
  · intro N env st inp inlen out outlen
    unfold pzsnap.snappy_uncompress
    cases pzsnap.RawUncompress N env st inp inlen out <;> simp [Outcome.bind]
  · intro inp inlen outlen
    rfl

/-! ## The lzma backend of `pzsnap.cc` -/

/-- Helper: the verbatim-copy encoder obeys the encoder contract. -/
theorem storeNative_contract : LzmaEncoderContract storeNative where
  stores_within := by
    intro preset check inp in_size out out_pos out_size i hi
    show (storeCopy LZMA_BUF_ERROR inp in_size out out_pos out_size).mem[i]? = out.mem[i]?
    unfold storeCopy
    split_ifs with h
    · exact getElem?_write (out.add out_pos) _ i (by simp only [Ptr.add]; omega)
    · rfl
  pos_kept := by
    intro preset check inp in_size out out_pos out_size hrc
    change (storeCopy LZMA_BUF_ERROR inp in_size out out_pos out_size).rc ≠ LZMA_OK at hrc
    show (storeCopy LZMA_BUF_ERROR inp in_size out out_pos out_size).len = out_pos
    unfold storeCopy at hrc ⊢
    split_ifs with h
    · rw [if_pos h] at hrc
      exact absurd rfl hrc
    · rfl
  pos_moved := by
    intro preset check inp in_size out out_pos out_size hrc
    change (storeCopy LZMA_BUF_ERROR inp in_size out out_pos out_size).rc = LZMA_OK at hrc
    show out_pos ≤ (storeCopy LZMA_BUF_ERROR inp in_size out out_pos out_size).len ∧
      (storeCopy LZMA_BUF_ERROR inp in_size out out_pos out_size).len ≤ out_size
    unfold storeCopy at hrc ⊢
    split_ifs with h
    · exact ⟨Nat.le_add_right _ _, h⟩
    · rw [if_neg h] at hrc
      have h10 : LZMA_BUF_ERROR ≠ LZMA_OK := by decide
      exact absurd hrc h10

/-- Helper: under the encoder contract, `lzma_cfunc` of `pzsnap.cc` stores
nothing and leaves `*outlen` as it found it. -/
theorem pzsnap_lzma_cfunc_unchanged (N : Native) (hN : LzmaEncoderContract N)
    (inp : Ptr) (inlen : Nat) (out : Ptr) (outlen : Nat) (h : outlen < WORD) :
    pzsnap.lzma_cfunc N inp inlen out outlen = (out.mem, outlen) := by
  have hmem : (N.lzma_easy_buffer_encode 2 LZMA_CHECK_NONE inp inlen out outlen outlen).mem
      = out.mem := by
    apply List.ext_getElem?
    intro i
    exact hN.stores_within 2 LZMA_CHECK_NONE inp inlen out outlen outlen i (by omega)
  have hlen : (N.lzma_easy_buffer_encode 2 LZMA_CHECK_NONE inp inlen out outlen outlen).len
      = outlen := by
    by_cases hrc :
        (N.lzma_easy_buffer_encode 2 LZMA_CHECK_NONE inp inlen out outlen outlen).rc = LZMA_OK
    · have := hN.pos_moved 2 LZMA_CHECK_NONE inp inlen out outlen outlen hrc
      omega
    · exact hN.pos_kept 2 LZMA_CHECK_NONE inp inlen out outlen outlen hrc
  simp only [pzsnap.lzma_cfunc, hmem, hlen, Nat.mod_eq_of_lt h]

/-- Helper: under the encoder contract, `snappy::RawCompress` with the lzma
backend stores the length prefix only and reports the capacity it was given. -/
theorem pzsnap_RawCompress_lzma (N : Native) (hN : LzmaEncoderContract N)
    (env : Option String) (st : State pzsnap.Backend) (hst : st.codec = .entry .c_lzma)
    (inp : Ptr) (inlen : Nat) (out : Ptr) (outlen : Nat) (h : outlen < WORD) :
    pzsnap.RawCompress N env st inp inlen out outlen
      = .ret (out.write (sizeBytes SIZEOF_SIZE_T inlen), outlen)
          (st.logged (.comp .c_lzma (wsub outlen SIZEOF_SIZE_T) inlen)) := by
  have hw : wsub outlen SIZEOF_SIZE_T < WORD := Nat.mod_lt _ (by decide)
  simp only [pzsnap.RawCompress, pzsnap.codec_comp, hst, Outcome.bind, pzsnap.deref,
    pzsnap.c_lzma, pzsnap_lzma_cfunc_unchanged N hN _ _ _ _ hw, Ptr.add, wadd_wsub _ _ h]

/-- C10: `lzma_cfunc` of `pzsnap.cc` calls the encoder with `*outlen` both as
the start position and as the capacity.  Under the encoder's contract no
byte of the output buffer changes and `*outlen` keeps the capacity it held,
so `snappy::RawCompress` with the lzma backend stores only the length prefix
and reports the caller's original capacity as the frame length, whatever the
input.  `lzma_cfunc` of `pzlib.c` starts the encoder at position 0. -/
theorem C10_lzma_zero_room (N : Native) (hN : LzmaEncoderContract N)
    (inp : Ptr) (inlen : Nat) (out : Ptr) (outlen : Nat) (level : Int) (h : outlen < WORD) :
    pzsnap.lzma_cfunc N inp inlen out outlen
      = ((N.lzma_easy_buffer_encode 2 LZMA_CHECK_NONE inp inlen out outlen outlen).mem,
         (N.lzma_easy_buffer_encode 2 LZMA_CHECK_NONE inp inlen out outlen outlen).len % WORD) ∧
    pzsnap.lzma_cfunc N inp inlen out outlen = (out.mem, outlen) ∧
    (∀ (env : Option String) (st : State pzsnap.Backend), st.codec = .entry .c_lzma →
      pzsnap.RawCompress N env st inp inlen out outlen
        = .ret (out.write (sizeBytes SIZEOF_SIZE_T inlen), outlen)
            (st.logged (.comp .c_lzma (wsub outlen SIZEOF_SIZE_T) inlen))) ∧
    pzlib.lzma_cfunc N out outlen inp inlen level
      = ⟨pzlib.lzma_err
           (N.lzma_easy_buffer_encode (ofInt32 level) LZMA_CHECK_NONE inp inlen out 0 outlen).rc,
         (N.lzma_easy_buffer_encode (ofInt32 level) LZMA_CHECK_NONE inp inlen out 0 outlen).mem,
         (N.lzma_easy_buffer_encode (ofInt32 level) LZMA_CHECK_NONE inp inlen out 0 outlen).len
           % WORD⟩ :=
  ⟨rfl, pzsnap_lzma_cfunc_unchanged N hN inp inlen out outlen h,
   fun env st hst => pzsnap_RawCompress_lzma N hN env st hst inp inlen out outlen h, rfl⟩

/-- C10 witness: the verbatim-copy libraries, input `1 2 3`, an 11-byte
output buffer holding 9s, capacity 11. -/
theorem C10_lzma_zero_room_witness :
    pzsnap.lzma_cfunc storeNative ⟨[1, 2, 3], 0⟩ 3 ⟨[9, 9, 9, 9, 9, 9, 9, 9, 9, 9, 9], 0⟩ 11
      = ([9, 9, 9, 9, 9, 9, 9, 9, 9, 9, 9], 11) ∧
    pzsnap.RawCompress storeNative none ⟨.entry .c_lzma, []⟩ ⟨[1, 2, 3], 0⟩ 3
        ⟨[9, 9, 9, 9, 9, 9, 9, 9, 9, 9, 9], 0⟩ 11
      = .ret (Ptr.write ⟨[9, 9, 9, 9, 9, 9, 9, 9, 9, 9, 9], 0⟩ (sizeBytes SIZEOF_SIZE_T 3), 11)
          (State.logged ⟨.entry .c_lzma, []⟩ (.comp .c_lzma (wsub 11 SIZEOF_SIZE_T) 3)) :=
  ⟨(C10_lzma_zero_room storeNative storeNative_contract ⟨[1, 2, 3], 0⟩ 3
      ⟨[9, 9, 9, 9, 9, 9, 9, 9, 9, 9, 9], 0⟩ 11 0 (by decide)).2.1,
   (C10_lzma_zero_room storeNative storeNative_contract ⟨[1, 2, 3], 0⟩ 3
      ⟨[9, 9, 9, 9, 9, 9, 9, 9, 9, 9, 9], 0⟩ 11 0 (by decide)).2.2.1 none
      ⟨.entry .c_lzma, []⟩ rfl⟩

/-! ## Length recovery -/

/-- Helper: the call `codec->comp` of `pzsnap.cc` is served by `b` when
`codec` points at `b`, and also when `codec` is still the stub and `POLYZ`
names `b`. -/
theorem pzsnap_codec_comp_serves (N : Native) (env : Option String) (st : State pzsnap.Backend)
    (b : pzsnap.Backend)
    (h : st.codec = .entry b ∨
      (st.codec = .def_codec ∧ ∃ v, env = some v ∧
        pzsnap.set_codec_loop v pzsnap.ctable = some b))
    (inp : Ptr) (inlen : Nat) (out : Ptr) (outlen : Nat) :
    ∃ st1, pzsnap.codec_comp N env st inp inlen out outlen
        = .ret ((pzsnap.deref N b).comp inp inlen out outlen) st1 ∧
      st1.codec = .entry b := by
  rcases h with h | ⟨hc, v, rfl, hl⟩
  · exact ⟨st.logged (.comp b outlen inlen), by simp only [pzsnap.codec_comp, h], h⟩
  · exact ⟨State.logged ⟨.entry b, st.log ++ [.getenv]⟩ (.comp b outlen inlen),
      by simp only [pzsnap.codec_comp, hc, pzsnap.def_cfunc, pzsnap_set_codec_eq,
        Option.bind, hl, Outcome.bind], rfl⟩

/-- C3 (as stated, refuted): the lzma backend of `pzsnap.cc` stores nothing,
so it leaves the bytes in front of `out + sizeof(size_t)` alone.  Called with
`*outlen = 0` on a 16-byte buffer, `snappy::RawCompress` hands it the
capacity `0 - 8 = 2^64 - 8`, which it leaves in `*outlen`, and adds 8 back:
the frame starts with the length 3 but its reported length is 0, and
`snappy::GetUncompressedLength` on that frame returns false. -/
theorem C3_reported_length_wraps :
    pzsnap.RawCompress storeNative none ⟨.entry .c_lzma, []⟩ ⟨[1, 2, 3], 0⟩ 3
        ⟨[0, 0, 0, 0, 0, 0, 0, 0, 0, 0, 0, 0, 0, 0, 0, 0], 0⟩ 0
      = .ret ([3, 0, 0, 0, 0, 0, 0, 0, 0, 0, 0, 0, 0, 0, 0, 0], 0)
          ⟨.entry .c_lzma, [.comp .c_lzma 18446744073709551608 3]⟩ ∧
    (pzsnap.deref storeNative .c_lzma).comp ⟨[1, 2, 3], 0⟩ 3
        ⟨[3, 0, 0, 0, 0, 0, 0, 0, 0, 0, 0, 0, 0, 0, 0, 0], 8⟩ 18446744073709551608
      = ([3, 0, 0, 0, 0, 0, 0, 0, 0, 0, 0, 0, 0, 0, 0, 0], 18446744073709551608) ∧
    (Ptr.mk [3, 0, 0, 0, 0, 0, 0, 0, 0, 0, 0, 0, 0, 0, 0, 0] 0).read SIZEOF_SIZE_T
      = sizeBytes SIZEOF_SIZE_T 3 ∧
    pzsnap.GetUncompressedLength ⟨[3, 0, 0, 0, 0, 0, 0, 0, 0, 0, 0, 0, 0, 0, 0, 0], 0⟩ 0 7
      = (false, 7) := by
  refine ⟨by decide, by decide, by decide, by decide⟩

/-- C3 (amended): let `snappy::RawCompress` be called for a byte sequence `S`
and be served by a backend (the one `codec` points at or, in a fresh process,
the one `POLYZ` names) whose `comp`, handed `out + sizeof(size_t)`, leaves the
bytes in front of that address as they were, and whose reported output lies
inside the output buffer, a buffer being smaller than `2^64` bytes.  Then the
frame begins with `len S` as a native `size_t`, the reported total length is
the backend's output length plus `sizeof(size_t)`, and
`snappy::GetUncompressedLength` on any copy of the frame returns true with
`*result = len S`. -/
theorem C3_length_recovery (N : Native) (env : Option String) (st : State pzsnap.Backend)
    (b : pzsnap.Backend)
    (hsel : st.codec = .entry b ∨
      (st.codec = .def_codec ∧ ∃ v, env = some v ∧
        pzsnap.set_codec_loop v pzsnap.ctable = some b))
    (S : List Byte) (inp out : Ptr) (cap : Nat) (cmem : List Byte) (clen : Nat)
    (hS : S.length < WORD) (_hinp : inp.read S.length = S)
    (hcomp : (pzsnap.deref N b).comp inp S.length
        ⟨out.write (sizeBytes SIZEOF_SIZE_T S.length), out.off + SIZEOF_SIZE_T⟩
        (wsub cap SIZEOF_SIZE_T) = (cmem, clen))
    (hregion : ∀ i, i < out.off + SIZEOF_SIZE_T →
        cmem[i]? = (out.write (sizeBytes SIZEOF_SIZE_T S.length))[i]?)
    (hfit : out.off + SIZEOF_SIZE_T + clen ≤ cmem.length) (hmem : cmem.length < WORD) :
    ∃ st1, pzsnap.RawCompress N env st inp S.length out cap
        = .ret (cmem, clen + SIZEOF_SIZE_T) st1 ∧
      (Ptr.mk cmem out.off).read SIZEOF_SIZE_T = sizeBytes SIZEOF_SIZE_T S.length ∧
      sizeValue ((Ptr.mk cmem out.off).read SIZEOF_SIZE_T) = S.length ∧
      ∀ (src : Ptr) (result : Nat),
        src.read (clen + SIZEOF_SIZE_T) = (Ptr.mk cmem out.off).read (clen + SIZEOF_SIZE_T) →
        pzsnap.GetUncompressedLength src (clen + SIZEOF_SIZE_T) result = (true, S.length) := by
  have hroom : out.off + (sizeBytes SIZEOF_SIZE_T S.length).length ≤ out.mem.length := by
    rw [sizeBytes_length]
    have h7 := hregion (out.off + 7) (by unfold SIZEOF_SIZE_T; omega)
    have hlt : out.off + 7 < cmem.length := by unfold SIZEOF_SIZE_T at hfit; omega
    rw [List.getElem?_eq_getElem hlt] at h7
    have hlt2 : out.off + 7 < (out.write (sizeBytes SIZEOF_SIZE_T S.length)).length := by
      by_contra hc
      rw [List.getElem?_eq_none (by omega)] at h7
      exact Option.noConfusion h7
    rw [write_length] at hlt2
    unfold SIZEOF_SIZE_T
    omega
  have hread : (Ptr.mk cmem out.off).read SIZEOF_SIZE_T = sizeBytes SIZEOF_SIZE_T S.length := by
    rw [read_congr cmem (out.write (sizeBytes SIZEOF_SIZE_T S.length)) out.off SIZEOF_SIZE_T
      (fun i _ h2 => hregion i h2)]
    have := read_write out (sizeBytes SIZEOF_SIZE_T S.length) hroom
    rwa [sizeBytes_length] at this
  have hval : sizeValue (sizeBytes SIZEOF_SIZE_T S.length) = S.length :=
    sizeValue_sizeBytes _ _ (by unfold WORD at hS; unfold SIZEOF_SIZE_T; omega)
  obtain ⟨st1, hcall, _⟩ := pzsnap_codec_comp_serves N env st b hsel inp S.length
    ⟨out.write (sizeBytes SIZEOF_SIZE_T S.length), out.off + SIZEOF_SIZE_T⟩
    (wsub cap SIZEOF_SIZE_T)
  refine ⟨st1, ?_, hread, ?_, ?_⟩
  · have hw : wadd clen SIZEOF_SIZE_T = clen + SIZEOF_SIZE_T := by
      unfold wadd
      exact Nat.mod_eq_of_lt (by omega)
    simp only [pzsnap.RawCompress, Ptr.add, hcall, Outcome.bind, hcomp, hw]
  · rw [hread, hval]
  · intro src result hsrc
    have h8 : ¬ (clen + SIZEOF_SIZE_T < SIZEOF_SIZE_T) := by omega
    have hsrc8 : src.read SIZEOF_SIZE_T = sizeBytes SIZEOF_SIZE_T S.length := by
      rw [← read_take src SIZEOF_SIZE_T (clen + SIZEOF_SIZE_T) (by omega), hsrc,
        read_take _ _ _ (by omega), hread]
    simp only [pzsnap.GetUncompressedLength, h8, if_false, hsrc8, hval]

/-- C3 witness: a fresh process with `POLYZ=zlib` over the reference
libraries, input `1 2 3`, an 11-byte output buffer and capacity 11. -/
theorem C3_length_recovery_witness :
    ∃ st1, pzsnap.RawCompress storeNative (some "zlib") (State.init pzsnap.Backend) ⟨[1, 2, 3], 0⟩
        ([1, 2, 3] : List Byte).length ⟨[0, 0, 0, 0, 0, 0, 0, 0, 0, 0, 0], 0⟩ 11
        = .ret ([3, 0, 0, 0, 0, 0, 0, 0, 1, 2, 3], 3 + SIZEOF_SIZE_T) st1 ∧
      (Ptr.mk [3, 0, 0, 0, 0, 0, 0, 0, 1, 2, 3] 0).read SIZEOF_SIZE_T
        = sizeBytes SIZEOF_SIZE_T ([1, 2, 3] : List Byte).length ∧
      sizeValue ((Ptr.mk [3, 0, 0, 0, 0, 0, 0, 0, 1, 2, 3] 0).read SIZEOF_SIZE_T)
        = ([1, 2, 3] : List Byte).length ∧
      ∀ (src : Ptr) (result : Nat),
        src.read (3 + SIZEOF_SIZE_T)
          = (Ptr.mk [3, 0, 0, 0, 0, 0, 0, 0, 1, 2, 3] 0).read (3 + SIZEOF_SIZE_T) →
        pzsnap.GetUncompressedLength src (3 + SIZEOF_SIZE_T) result
          = (true, ([1, 2, 3] : List Byte).length) :=
  C3_length_recovery storeNative (some "zlib") (State.init pzsnap.Backend) .c_zlib
    (Or.inr ⟨rfl, "zlib", rfl, by decide⟩) [1, 2, 3]
    ⟨[1, 2, 3], 0⟩ ⟨[0, 0, 0, 0, 0, 0, 0, 0, 0, 0, 0], 0⟩ 11
    [3, 0, 0, 0, 0, 0, 0, 0, 1, 2, 3] 3 (by decide) (by decide) (by decide)
    (by
      intro i hi
      have hi8 : i < 8 := hi
      interval_cases i <;> rfl)
    (by decide) (by decide)

/-! ## Length-prefixed round trip with the lzma backend -/

/-- C2 (the code at the failing input): with the lzma backend of `pzsnap.cc`
and any libraries whose encoder obeys its contract, `snappy::RawCompress`
produces one and the same frame, of reported length equal to the capacity,
for any two inputs `S1`, `S2` of equal length; `snappy::RawUncompress` of
that frame returns, and what it has stored cannot be both `S1` and `S2` when
these differ: the round trip fails for at least one of them. -/
theorem C2_lzma_round_trip_fails (N : Native) (hN : LzmaEncoderContract N)
    (S1 S2 : List Byte) (hne : S1 ≠ S2) (hlen : S1.length = S2.length)
    (inp1 inp2 out dst : Ptr) (_h1 : inp1.read S1.length = S1) (_h2 : inp2.read S2.length = S2)
    (cap : Nat) (hcap : cap < WORD) (env env' : Option String)
    (st : State pzsnap.Backend) (hst : st.codec = .entry .c_lzma) :
    ∃ frame st1,
      pzsnap.RawCompress N env st inp1 S1.length out cap = .ret (frame, cap) st1 ∧
      pzsnap.RawCompress N env st inp2 S2.length out cap = .ret (frame, cap) st1 ∧
      ∃ ok mem st2,
        pzsnap.RawUncompress N env' st1 ⟨frame, out.off⟩ cap dst = .ret (ok, mem) st2 ∧
        ¬ ((Ptr.mk mem dst.off).read S1.length = S1 ∧
           (Ptr.mk mem dst.off).read S2.length = S2) := by
  refine ⟨out.write (sizeBytes SIZEOF_SIZE_T S1.length),
    st.logged (.comp .c_lzma (wsub cap SIZEOF_SIZE_T) S1.length),
    pzsnap_RawCompress_lzma N hN env st hst inp1 S1.length out cap hcap, ?_, ?_⟩
  · rw [← hlen]
    exact pzsnap_RawCompress_lzma N hN env st hst inp2 S1.length out cap hcap
  · refine ⟨((pzsnap.deref N .c_lzma).uncomp
        (Ptr.add ⟨out.write (sizeBytes SIZEOF_SIZE_T S1.length), out.off⟩ SIZEOF_SIZE_T)
        (wsub cap SIZEOF_SIZE_T) dst).1,
      ((pzsnap.deref N .c_lzma).uncomp
        (Ptr.add ⟨out.write (sizeBytes SIZEOF_SIZE_T S1.length), out.off⟩ SIZEOF_SIZE_T)
        (wsub cap SIZEOF_SIZE_T) dst).2,
      (st.logged (.comp .c_lzma (wsub cap SIZEOF_SIZE_T) S1.length)).logged
        (.uncomp .c_lzma (wsub cap SIZEOF_SIZE_T)), ?_, ?_⟩
    · simp only [pzsnap.RawUncompress, pzsnap.codec_uncomp, State.logged, hst]
    · rintro ⟨ha, hb⟩
      rw [← hlen] at hb
      exact hne (ha.symm.trans hb)

/-- C2 witness: the verbatim-copy libraries with inputs `1` and `2`, and the
run for the input `1 2 3` with capacity `MaxCompressedLength(3) = 11` into a
buffer holding 9s: the frame is the length prefix followed by the untouched
9s, and decompression stores `9 9 9`. -/
theorem C2_lzma_round_trip_fails_witness :
    (∃ frame st1,
      pzsnap.RawCompress storeNative none ⟨.entry .c_lzma, []⟩ ⟨[1], 0⟩
          ([1] : List Byte).length ⟨[0, 0, 0, 0, 0, 0, 0, 0, 0], 0⟩ 9 = .ret (frame, 9) st1 ∧
      pzsnap.RawCompress storeNative none ⟨.entry .c_lzma, []⟩ ⟨[2], 0⟩
          ([2] : List Byte).length ⟨[0, 0, 0, 0, 0, 0, 0, 0, 0], 0⟩ 9 = .ret (frame, 9) st1 ∧
      ∃ ok mem st2,
        pzsnap.RawUncompress storeNative none st1
            ⟨frame, (Ptr.mk [0, 0, 0, 0, 0, 0, 0, 0, 0] 0).off⟩ 9 ⟨[0], 0⟩ = .ret (ok, mem) st2 ∧
        ¬ ((Ptr.mk mem (Ptr.mk [0] 0).off).read ([1] : List Byte).length = [1] ∧
           (Ptr.mk mem (Ptr.mk [0] 0).off).read ([2] : List Byte).length = [2])) ∧
    pzsnap.MaxCompressedLength storeNative none ⟨.entry .c_lzma, []⟩ 3
      = .ret 11 ⟨.entry .c_lzma, [.bound .c_lzma 3]⟩ ∧
    pzsnap.RawCompress storeNative none ⟨.entry .c_lzma, []⟩ ⟨[1, 2, 3], 0⟩ 3
        ⟨[9, 9, 9, 9, 9, 9, 9, 9, 9, 9, 9], 0⟩ 11
      = .ret ([3, 0, 0, 0, 0, 0, 0, 0, 9, 9, 9], 11) ⟨.entry .c_lzma, [.comp .c_lzma 3 3]⟩ ∧
    pzsnap.RawUncompress storeNative none ⟨.entry .c_lzma, []⟩
        ⟨[3, 0, 0, 0, 0, 0, 0, 0, 9, 9, 9], 0⟩ 11 ⟨[0, 0, 0], 0⟩
      = .ret (true, [9, 9, 9]) ⟨.entry .c_lzma, [.uncomp .c_lzma 3]⟩ :=
  ⟨C2_lzma_round_trip_fails storeNative storeNative_contract [1] [2] (by decide) rfl
      ⟨[1], 0⟩ ⟨[2], 0⟩ ⟨[0, 0, 0, 0, 0, 0, 0, 0, 0], 0⟩ ⟨[0], 0⟩ (by decide) (by decide)
      9 (by decide) none none ⟨.entry .c_lzma, []⟩ rfl,
   by decide, by decide, by decide⟩

/-! ## Bound sizing with the bzip2 backend -/

/-- Helper: `bzip2_err` reports `Z_OK` for `BZ_OK` only. -/
theorem bzip2_err_ne_ok (e : Int) (h : e ≠ BZ_OK) : pzlib.bzip2_err e ≠ Z_OK := by
  unfold pzlib.bzip2_err
  split_ifs <;> first | exact absurd ‹e = BZ_OK› h | decide

/-- Helper: the reference bzip2 encoder never succeeds into an empty
destination. -/
theorem storeNative_bzip2_zero (dest src : Ptr) (n : Nat) (level v w : Int) :
    (storeNative.BZ2_bzBuffToBuffCompress dest 0 src n level v w).rc ≠ BZ_OK := by
  show (if 2 + (src.read n).length ≤ 0 then _ else _ : BufResult).rc ≠ BZ_OK
  rw [if_neg (by omega)]
  have h8 : BZ_OUTBUFF_FULL ≠ BZ_OK := by decide
  exact h8

/-- C9 (the code at the failing input): let the bzip2 library never report
`BZ_OK` when told that the destination holds 0 bytes.  With the bzip2 backend
of `pzlib.c` and `L = 2^32 - 32`, `compressBound(L)` is `2^32 + 1`, and
`compress2` with that capacity hands `bzip2_cfunc` the capacity
`bound(L) = 2^32`, which `bzip2_cfunc` stores in an `unsigned int`: the
library is called with destination length 0 and `compress2` returns a status
other than `Z_OK`.  In `pzsnap.cc` the same happens for `L = 2^32 - 16`:
`MaxCompressedLength(L)` is `2^32 + 8`, `bzip2_cfunc` is handed `2^32` and
calls the library with destination length 0. -/
theorem C9_bzip2_capacity_truncated (N : Native)
    (hN : ∀ (dest src : Ptr) (n : Nat) (level v w : Int),
      (N.BZ2_bzBuffToBuffCompress dest 0 src n level v w).rc ≠ BZ_OK) :
    (∀ (env : Option String) (log : List (Event pzlib.Backend)) (out inp : Ptr) (level : Int),
      pzlib.compressBound N env ⟨.entry .c_bzip2, log⟩ 4294967264
        = .ret 4294967297 ⟨.entry .c_bzip2, log ++ [.bound .c_bzip2 4294967264]⟩ ∧
      pzlib.compress2 N env ⟨.entry .c_bzip2, log⟩ out 4294967297 inp 4294967264 level
        = .ret
            ⟨pzlib.bzip2_err (N.BZ2_bzBuffToBuffCompress ⟨out.write [8], out.off + 1⟩ 0 inp
                4294967264 level 0 0).rc,
             (N.BZ2_bzBuffToBuffCompress ⟨out.write [8], out.off + 1⟩ 0 inp
                4294967264 level 0 0).mem,
             wadd (toUInt (N.BZ2_bzBuffToBuffCompress ⟨out.write [8], out.off + 1⟩ 0 inp
                4294967264 level 0 0).len) 1⟩
            ⟨.entry .c_bzip2, log ++ [.comp .c_bzip2 4294967296 4294967264]⟩ ∧
      pzlib.bzip2_err (N.BZ2_bzBuffToBuffCompress ⟨out.write [8], out.off + 1⟩ 0 inp
        4294967264 level 0 0).rc ≠ Z_OK) ∧
    (∀ (env : Option String) (log : List (Event pzsnap.Backend)) (out inp : Ptr),
      pzsnap.MaxCompressedLength N env ⟨.entry .c_bzip2, log⟩ 4294967280
        = .ret 4294967304 ⟨.entry .c_bzip2, log ++ [.bound .c_bzip2 4294967280]⟩ ∧
      pzsnap.RawCompress N env ⟨.entry .c_bzip2, log⟩ inp 4294967280 out 4294967304
        = .ret
            ((N.BZ2_bzBuffToBuffCompress
                ⟨out.write (sizeBytes SIZEOF_SIZE_T 4294967280), out.off + SIZEOF_SIZE_T⟩ 0 inp
                4294967280 9 0 0).mem,
             wadd (toUInt (N.BZ2_bzBuffToBuffCompress
                ⟨out.write (sizeBytes SIZEOF_SIZE_T 4294967280), out.off + SIZEOF_SIZE_T⟩ 0 inp
                4294967280 9 0 0).len) SIZEOF_SIZE_T)
            ⟨.entry .c_bzip2, log ++ [.comp .c_bzip2 4294967296 4294967280]⟩ ∧
      (N.BZ2_bzBuffToBuffCompress
        ⟨out.write (sizeBytes SIZEOF_SIZE_T 4294967280), out.off + SIZEOF_SIZE_T⟩ 0 inp
        4294967280 9 0 0).rc ≠ BZ_OK) := by
  have e1 : wadd (pzlib.bzip2_bfunc 4294967264) 1 = 4294967297 := by decide
  have e2 : wsub 4294967297 1 = 4294967296 := by decide
  have e3 : toUInt 4294967296 = 0 := by decide
  have e4 : toUInt 4294967264 = 4294967264 := by decide
  have e5 : wadd (pzsnap.bzip2_bfunc 4294967280) SIZEOF_SIZE_T = 4294967304 := by decide
  have e6 : wsub 4294967304 SIZEOF_SIZE_T = 4294967296 := by decide
  have e7 : toUInt 4294967280 = 4294967280 := by decide
  constructor
  · intro env log out inp level
    refine ⟨?_, ?_, bzip2_err_ne_ok _ (hN _ _ _ _ _ _)⟩
    · simp only [pzlib.compressBound, pzlib.codec_bound, Outcome.bind, State.logged,
        pzlib.deref, pzlib.c_bzip2, e1]
    · simp only [pzlib.compress2, pzlib.codec_comp, Outcome.bind, State.logged, pzlib.deref,
        pzlib.c_bzip2, pzlib.bzip2_cfunc, Ptr.add, e2, e3, e4]
  · intro env log out inp
    refine ⟨?_, ?_, hN _ _ _ _ _ _⟩
    · simp only [pzsnap.MaxCompressedLength, pzsnap.codec_bound, Outcome.bind, State.logged,
        pzsnap.deref, pzsnap.c_bzip2, e5]
    · simp only [pzsnap.RawCompress, pzsnap.codec_comp, Outcome.bind, State.logged,
        pzsnap.deref, pzsnap.c_bzip2, pzsnap.bzip2_cfunc, Ptr.add, e6, e3, e7]

/-- C9 witness: the reference libraries; `compressBound(2^32 - 32)` with the
bzip2 backend of `pzlib.c`. -/
theorem C9_bzip2_capacity_truncated_witness :
    pzlib.compressBound storeNative none ⟨.entry .c_bzip2, []⟩ 4294967264
      = .ret 4294967297 ⟨.entry .c_bzip2, [] ++ [.bound .c_bzip2 4294967264]⟩ :=
  ((C9_bzip2_capacity_truncated storeNative storeNative_bzip2_zero).1 none [] ⟨[], 0⟩ ⟨[], 0⟩
    0).1

/-! ## Deflate-style round trip with the bzip2 backend -/

end PolyZ
